import Mathlib

/-! The event engine of `nxt_event_engine.c`.

A shallow embedding of the event engine: the battery of eight work queues with
its round-robin cursor, the self-pipe reader, the signal dispatcher, the
engine lifecycle (`create`, `change`) and the request index.

Pointers into the engine are modelled by offsets: a pointer to one of the
eight work queues is the index of that queue, counted from `fast_work_queue`.
A nullable pointer is an `Option`.  Function pointers stored in work entries
are the constructors of `nxt_work_handler_t`.
-/

namespace NxtEventEngine

set_option maxRecDepth 100000

/-! ## Data model -/

/-- Modelled from the spec: the type `nxt_work_handler_t` of work handlers,
the function pointers that the engine stores in work entries and fd events.
The named constructors are the handlers defined in `nxt_event_engine.c`;
`user id` stands for any handler of the host program. -/
inductive nxt_work_handler_t where
  | user (id : Nat)
  | nxt_event_engine_signal_pipe
  | nxt_event_engine_signal_pipe_close
  | nxt_event_engine_signal_pipe_error
  | nxt_event_engine_post_handler
  | nxt_event_engine_signal_handler
  deriving DecidableEq, Repr

/-- Modelled from the spec: the fd-event registration `nxt_fd_event_t`, with
the fields that `nxt_event_engine_signal_pipe_create` fills in.  A work queue
pointer is the index of the queue. -/
structure nxt_fd_event_t where
  fd : Nat
  read_work_queue : Option Nat
  read_handler : Option nxt_work_handler_t
  write_work_queue : Option Nat
  error_handler : Option nxt_work_handler_t
  deriving DecidableEq, Repr

/-- Modelled from the spec: the self-pipe record `nxt_event_engine_pipe_t`,
its fd event and its descriptor pair.  `pending` is the kernel side of the
pipe: the bytes written to `fds[1]` and not yet read from `fds[0]`, oldest
first. -/
structure nxt_event_engine_pipe_t where
  event : nxt_fd_event_t
  fds : Nat × Nat
  pending : List Nat
  deriving DecidableEq, Repr

/-- The `void *` arguments of a work entry. -/
inductive Obj where
  | null
  | addr (a : Nat)
  | pipe (p : nxt_event_engine_pipe_t)
  deriving DecidableEq, Repr

/-- Modelled from the spec: a work entry `(handler, task, obj, data)`. -/
structure nxt_work_t where
  handler : nxt_work_handler_t
  task : Nat
  obj : Obj
  data : Obj
  deriving DecidableEq, Repr

/-- Modelled from the spec: one row `nxt_sig_event_t` of the signal table,
`(signo, handler, name)`.  Signal numbers are non-negative. -/
structure nxt_sig_event_t where
  signo : Nat
  handler : nxt_work_handler_t
  name : String
  deriving DecidableEq, Repr

/-- Modelled from the spec: the engine's signal set `nxt_event_signals_t`,
with the table it was built from, the dispatcher installed as its handler and
the flag that `nxt_event_engine_change` resets. -/
structure nxt_event_signals_t where
  sigev : List nxt_sig_event_t
  handler : Option nxt_work_handler_t
  process : Nat
  deriving DecidableEq, Repr

/-- Modelled from the spec: the result code `NXT_OK` of `nxt_int_t`
functions. -/
def NXT_OK : Int := 0

/-- Modelled from the spec: the result code `NXT_ERROR` of `nxt_int_t`
functions. -/
def NXT_ERROR : Int := -1

/-- Modelled from the spec: the flag bit `NXT_ENGINE_FIBERS` (the `FIBERS`
flag) of `nxt_event_engine_create`. -/
def NXT_ENGINE_FIBERS : Nat := 1

/-- Modelled from the spec: the backend vtable `nxt_event_interface_t`.  The
hooks are code of the backends; the engine sees of them only whether an
optional hook is present and the result code of a call.  `create c n` is the
result of `create(engine, c, n)`; `enable_post` is `none` for a null hook and
otherwise holds the result of calling it; `signal` tells whether the `signal`
hook is present. -/
structure nxt_event_interface_t where
  create : Nat → Nat → Int
  enable_post : Option Int
  signal : Bool
  signal_support : Bool

/-- Modelled from the spec: the state a backend keeps for the engine, as far
as the engine drives it: the capacities `create` was called with, the handler
registered through `enable_post`, and the fd events enabled for
read-readiness. -/
structure Backend where
  changes : Nat
  events : Nat
  post_handler : Option nxt_work_handler_t
  read_enabled : List nxt_fd_event_t
  deriving DecidableEq, Repr

/-- Modelled from the spec: a request link `nxt_req_conn_link_t`, its 32-bit
`req_id` and the connection it belongs to. -/
structure nxt_req_conn_link_t where
  req_id : Nat
  conn : Nat
  deriving DecidableEq, Repr

/-- Modelled from the spec: the engine `nxt_event_engine_t`, with the fields
that `nxt_event_engine.c` reads and writes.  `work_queue i` is the content of the
`i`-th of the eight work queues, head first (`head == NULL` is the empty
list); `task` is the ident of the engine's own task; `backend` is the state
the current backend keeps for the engine; `requests` is the request index,
see `nxt_lvlhsh_insert`. -/
structure nxt_event_engine_t where
  task : Nat
  batch : Nat
  fibers : Bool
  current_work_queue : Nat
  work_queue : Nat → List nxt_work_t
  locked_work_queue : List nxt_work_t
  signals : Option nxt_event_signals_t
  event : nxt_event_interface_t
  backend : Option Backend
  pipe : Option nxt_event_engine_pipe_t
  timers : Option Nat
  max_connections : Nat
  requests : List (Nat × nxt_req_conn_link_t)

/-- Modelled from the spec: the eight work queues lie in the engine in
priority order fast, accept, read, socket, connect, write, shutdown, close;
a pointer to one of them is its offset from `fast_work_queue`. -/
def fast_work_queue : Nat := 0

/-- Modelled from the spec: the offset of the `accept` queue. -/
def accept_work_queue : Nat := 1

/-- Modelled from the spec: the offset of the `read` queue. -/
def read_work_queue : Nat := 2

/-- Modelled from the spec: the offset of the `socket` queue. -/
def socket_work_queue : Nat := 3

/-- Modelled from the spec: the offset of the `connect` queue. -/
def connect_work_queue : Nat := 4

/-- Modelled from the spec: the offset of the `write` queue. -/
def write_work_queue : Nat := 5

/-- Modelled from the spec: the offset of the `shutdown` queue. -/
def shutdown_work_queue : Nat := 6

/-- Modelled from the spec: the offset of the `close` queue. -/
def close_work_queue : Nat := 7

/-! ## Work queues -/

/-- Replace the content of queue `wq`. -/
def set_queue (q : Nat → List nxt_work_t) (wq : Nat) (v : List nxt_work_t) :
    Nat → List nxt_work_t :=
  fun i => if i = wq then v else q i

/-- Modelled from the spec: `nxt_work_queue_add` appends an entry at the tail
of a queue. -/
def nxt_work_queue_add (engine : nxt_event_engine_t) (wq : Nat)
    (work : nxt_work_t) : nxt_event_engine_t :=
  { engine with
    work_queue := set_queue engine.work_queue wq (engine.work_queue wq ++ [work]) }

/-- Modelled from the spec: `nxt_work_queue_pop` takes the head entry off a
queue and returns it.  The callers below reach it only with a non-empty
queue. -/
def nxt_work_queue_pop (engine : nxt_event_engine_t) (wq : Nat) :
    nxt_event_engine_t × Option nxt_work_t :=
  match engine.work_queue wq with
  | [] => (engine, none)
  | work :: next =>
    ({ engine with work_queue := set_queue engine.work_queue wq next }, some work)

/-- The `do … while (wq != last)` search of `nxt_event_engine_queue_pop`.
Each round advances the cursor, wraps it to `fast` when it has run past
`close`, and stops at a non-empty queue (`some wq`) or when it is back at
`last` (`none`).  The outer `Option` is `none` when the fuel runs out. -/
def queue_pop_search (last : Nat) :
    Nat → nxt_event_engine_t → Option (nxt_event_engine_t × Option Nat)
  | 0, _ => none
  | fuel + 1, engine =>
    let wq := engine.current_work_queue + 1
    let wq := if wq > close_work_queue then fast_work_queue else wq
    let engine := { engine with current_work_queue := wq }
    if (engine.work_queue wq).isEmpty = false then
      some (engine, some wq)
    else if wq ≠ last then
      queue_pop_search last fuel engine
    else
      some (engine, none)

/-- The function `nxt_event_engine_queue_pop`: the engine after the call and
the popped entry (`none` for a NULL handler).  The outer `Option` is `none`
when the search runs out of fuel. -/
def nxt_event_engine_queue_pop (fuel : Nat) (engine : nxt_event_engine_t) :
    Option (nxt_event_engine_t × Option nxt_work_t) :=
  let wq := engine.current_work_queue
  let last := wq
  if (engine.work_queue wq).isEmpty then
    let wq := fast_work_queue
    if (engine.work_queue wq).isEmpty then
      match queue_pop_search last fuel engine with
      | none => none
      | some (engine, some wq) => some (nxt_work_queue_pop engine wq)
      | some (engine, none) =>
        some ({ engine with current_work_queue := fast_work_queue }, none)
    else
      some (nxt_work_queue_pop engine wq)
  else
    some (nxt_work_queue_pop engine wq)

/-- The cyclic order of the spec's selection rule: the queue after the
cursor, on through `close`, wrapping to `fast`, and ending on the cursor
itself. -/
def cyclic_order (cursor : Nat) : List Nat :=
  (List.range 8).map (fun k => (cursor + 1 + k) % 8)

/-- The selection rule as the spec words it: the cursor queue if non-empty;
else `fast` if non-empty; else the first non-empty queue in the cyclic order
after the cursor, which becomes the cursor; else nothing, and the cursor goes
back to `fast`. -/
def spec_queue_pop (engine : nxt_event_engine_t) :
    nxt_event_engine_t × Option nxt_work_t :=
  if (engine.work_queue engine.current_work_queue).isEmpty = false then
    nxt_work_queue_pop engine engine.current_work_queue
  else if (engine.work_queue fast_work_queue).isEmpty = false then
    nxt_work_queue_pop engine fast_work_queue
  else
    match (cyclic_order engine.current_work_queue).find?
        (fun i => !(engine.work_queue i).isEmpty) with
    | some wq => nxt_work_queue_pop { engine with current_work_queue := wq } wq
    | none => ({ engine with current_work_queue := fast_work_queue }, none)


/-! ## Scheduler loop: the drain phase -/

/-- The drain phase of `nxt_event_engine_start`, the inner `for ( ;; )`: pop
an entry, leave the loop on a NULL handler, otherwise invoke the handler.
`run work engine` is the effect of invoking the handler of `work`; the list
collects the entries whose handlers were invoked, in order.  `pop_fuel` bounds
the search inside each pop, `fuel` the number of rounds. -/
def nxt_event_engine_start_drain
    (run : nxt_work_t → nxt_event_engine_t → nxt_event_engine_t) (pop_fuel : Nat) :
    Nat → nxt_event_engine_t → List nxt_work_t →
      Option (nxt_event_engine_t × List nxt_work_t)
  | 0, _, _ => none
  | fuel + 1, engine, ran =>
    match nxt_event_engine_queue_pop pop_fuel engine with
    | none => none
    | some (engine, none) => some (engine, ran)
    | some (engine, some work) =>
      nxt_event_engine_start_drain run pop_fuel fuel (run work engine) (ran ++ [work])

/-- The invariant of a drain: the cursor is inside the eight queues and every
queue before it is empty. -/
def drain_inv (engine : nxt_event_engine_t) : Prop :=
  engine.current_work_queue ≤ 7 ∧
    ∀ i, i < engine.current_work_queue → engine.work_queue i = []

/-- The eight queues laid end to end in class order. -/
def class_order (q : Nat → List nxt_work_t) : List nxt_work_t :=
  q fast_work_queue ++ q accept_work_queue ++ q read_work_queue ++ q socket_work_queue
    ++ q connect_work_queue ++ q write_work_queue ++ q shutdown_work_queue
    ++ q close_work_queue

/-! ## Self-pipe reader -/

/-- What one `nxt_fd_read(fd, buf, sizeof(buf))` leaves behind: the returned
count `n` (negative for an error) and the content of `buf`. -/
structure ReadResult where
  n : Int
  buf : Nat → Nat

/-- The `for (i = 0; i < n; i++)` loop of the reader over one buffer: a zero
byte sets `post`, any other byte goes to the signal dispatcher. -/
def signal_pipe_scan {σ : Type} (signal_handler : Nat → σ → σ) (r : ReadResult)
    (post : Bool) (s : σ) : Bool × σ :=
  (List.range r.n.toNat).foldl
    (fun acc i =>
      let signo := r.buf i
      if signo = 0 then (true, acc.2) else (acc.1, signal_handler signo acc.2))
    (post, s)

/-- The `do … while (n == sizeof(buf))` loop of the reader.  `nxt_fd_read`
performs one read on the state `ρ` of the descriptor. -/
def signal_pipe_loop {ρ σ : Type} (nxt_fd_read : ρ → ReadResult × ρ)
    (signal_handler : Nat → σ → σ) : Nat → ρ → Bool → σ → Option (ρ × Bool × σ)
  | 0, _, _, _ => none
  | fuel + 1, fd, post, s =>
    let r := nxt_fd_read fd
    let acc := signal_pipe_scan signal_handler r.1 post s
    if r.1.n = 128 then
      signal_pipe_loop nxt_fd_read signal_handler fuel r.2 acc.1 acc.2
    else
      some (r.2, acc.1, acc.2)

/-- The function `nxt_event_engine_signal_pipe`, over any descriptor state `ρ`
and any state `σ` that the two handlers it calls act on.  The result is
`none` when the fuel runs out. -/
def nxt_event_engine_signal_pipe {ρ σ : Type} (nxt_fd_read : ρ → ReadResult × ρ)
    (signal_handler : Nat → σ → σ) (post_handler : σ → σ) (fuel : Nat) (fd : ρ) (s : σ) :
    Option (ρ × σ) :=
  match signal_pipe_loop nxt_fd_read signal_handler fuel fd false s with
  | none => none
  | some (fd, post, s) => some (fd, if post then post_handler s else s)

/-- The step of the reader on one byte. -/
def scan_step {σ : Type} (signal_handler : Nat → σ → σ) (acc : Bool × σ) (signo : Nat) :
    Bool × σ :=
  if signo = 0 then (true, acc.2) else (acc.1, signal_handler signo acc.2)

/-- The bytes the reader looks at in one read result: `buf[0 .. n)`. -/
def bytes_of (r : ReadResult) : List Nat :=
  (List.range r.n.toNat).map r.buf

/-- The bytes of the reads number `0` to `k` of a sequence of read results,
in the order read. -/
def bytes_upto (reads : Nat → ReadResult) (k : Nat) : List Nat :=
  ((List.range (k + 1)).map (fun j => bytes_of (reads j))).flatten

/-- The reader run on a given sequence of read results: the descriptor state
is the number of reads made so far. -/
def read_nth (reads : Nat → ReadResult) (j : Nat) : ReadResult × Nat :=
  (reads j, j + 1)

/-! ## Signal dispatcher -/

/-- What a dispatch does: it invokes one table handler with
`(task, signo, name)`, or it logs at CRIT level that no handler was found. -/
inductive Action where
  | invoke (handler : nxt_work_handler_t) (task : Nat) (signo : Nat) (name : String)
  | log_crit (signo : Nat)
  deriving DecidableEq, Repr

/-- The ways a run can leave the model: a null pointer is dereferenced, the
table walk runs past the end of the table, a loop runs out of fuel. -/
inductive Fault where
  | null_deref
  | out_of_bounds
  | out_of_fuel
  deriving DecidableEq, Repr

/-- The `for (sigev = …; sigev->signo != 0; sigev++)` walk of the dispatcher
over the memory of the table: `some (some sigev)` is the matching row,
`some none` the terminator reached without a match, `none` a walk past the
end of a table without terminator.  Signal numbers are non-negative, so the
cast of `sigev->signo` to `nxt_uint_t` is the identity. -/
def signal_handler_search (signo : Nat) :
    List nxt_sig_event_t → Option (Option nxt_sig_event_t)
  | [] => none
  | sigev :: rest =>
    if sigev.signo = 0 then some none
    else if signo = sigev.signo then some (some sigev)
    else signal_handler_search signo rest

/-- The function `nxt_event_engine_signal_handler` for the signal set
`signals` of the task's engine. -/
def nxt_event_engine_signal_handler (task : Nat) (signals : Option nxt_event_signals_t)
    (signo : Nat) : Except Fault Action :=
  match signals with
  | none => .error .null_deref
  | some signals =>
    match signal_handler_search signo signals.sigev with
    | none => .error .out_of_bounds
    | some (some sigev) => .ok (.invoke sigev.handler task signo sigev.name)
    | some none => .ok (.log_crit signo)

/-! ## Engine lifecycle -/

/-- Modelled from the spec: the outcomes of the calls that `create` and
`change` make outside this file and that can fail: the two allocations, the
fiber main-context, the signal set, the start of signal processing, the pipe
and the timers.  `ident` is the value of `nxt_task_next_ident()` and
`pipe_fds` the descriptor pair that `nxt_pipe_create` hands out. -/
structure Env where
  zalloc_engine : Bool
  ident : Nat
  fiber_main_create : Bool
  event_engine_signals : Bool
  signals_start : Int
  zalloc_pipe : Bool
  pipe_create : Int
  pipe_fds : Nat × Nat
  timers_init : Int
  deriving DecidableEq, Repr

/-- The resources around the engine: how many engine records, fiber
main-contexts, signal sets, work-queue caches, backend states, pipe records,
open pipe descriptor pairs and timer sets are live; whether signal processing
is running; and the log of what the signal dispatcher did. -/
structure World where
  engines : Nat
  fibers : Nat
  signal_sets : Nat
  caches : Nat
  backends : Nat
  pipes : Nat
  pipe_fds : Nat
  timers : Nat
  signal_processing : Bool
  calls : List Action
  deriving DecidableEq, Repr

/-- A world with nothing allocated. -/
def world_zero : World :=
  { engines := 0, fibers := 0, signal_sets := 0, caches := 0, backends := 0, pipes := 0,
    pipe_fds := 0, timers := 0, signal_processing := false, calls := [] }

/-- A vtable of null hooks, as in a zeroed engine. -/
def event_zero : nxt_event_interface_t :=
  { create := fun _ _ => NXT_ERROR, enable_post := none, signal := false,
    signal_support := false }

/-- The engine as `nxt_zalloc` returns it. -/
def engine_zero : nxt_event_engine_t :=
  { task := 0, batch := 0, fibers := false, current_work_queue := 0,
    work_queue := fun _ => [], locked_work_queue := [], signals := none,
    event := event_zero, backend := none, pipe := none, timers := none,
    max_connections := 0, requests := [] }

/-- A zeroed fd event. -/
def fd_event_zero : nxt_fd_event_t :=
  { fd := 0, read_work_queue := none, read_handler := none, write_work_queue := none,
    error_handler := none }

/-- The pipe record as `nxt_zalloc` returns it. -/
def pipe_zero : nxt_event_engine_pipe_t :=
  { event := fd_event_zero, fds := (0, 0), pending := [] }

/-- Modelled from the spec: `nxt_fd_event_enable_read` registers the fd event
with the current backend for read-readiness. -/
def nxt_fd_event_enable_read (engine : nxt_event_engine_t) (ev : nxt_fd_event_t) :
    nxt_event_engine_t :=
  { engine with
    backend := engine.backend.map
      (fun b => { b with read_enabled := ev :: b.read_enabled }) }

/-- The function `nxt_event_engine_signal_pipe_create`. -/
def nxt_event_engine_signal_pipe_create (env : Env) (engine : nxt_event_engine_t)
    (world : World) : Int × nxt_event_engine_t × World :=
  if env.zalloc_pipe = false then
    (NXT_ERROR, engine, world)
  else
    let pipe := pipe_zero
    let world := { world with pipes := world.pipes + 1 }
    let engine := { engine with pipe := some pipe }
    if env.pipe_create ≠ NXT_OK then
      (NXT_ERROR, engine, { world with pipes := world.pipes - 1 })
    else
      let world := { world with pipe_fds := world.pipe_fds + 1 }
      let pipe := { pipe with fds := env.pipe_fds }
      let pipe := { pipe with
        event :=
          { fd := pipe.fds.1
            read_work_queue := some fast_work_queue
            read_handler := some .nxt_event_engine_signal_pipe
            write_work_queue := some fast_work_queue
            error_handler := some .nxt_event_engine_signal_pipe_error } }
      let engine := { engine with pipe := some pipe }
      (NXT_OK, nxt_fd_event_enable_read engine pipe.event, world)

/-- The function `nxt_event_engine_post_init`.  Modelled from the spec: a
successful `enable_post` hook registers the handler it is given with the
backend. -/
def nxt_event_engine_post_init (env : Env) (engine : nxt_event_engine_t)
    (world : World) : Int × nxt_event_engine_t × World :=
  match engine.event.enable_post with
  | some rc =>
    if rc = NXT_OK then
      (rc, { engine with
              backend := engine.backend.map
                (fun b => { b with post_handler := some .nxt_event_engine_post_handler }) },
        world)
    else
      (rc, engine, world)
  | none =>
    let r := nxt_event_engine_signal_pipe_create env engine world
    if r.1 ≠ NXT_OK then (NXT_ERROR, r.2.1, r.2.2) else (NXT_OK, r.2.1, r.2.2)

/-- The labels of the unwinding code at the end of
`nxt_event_engine_create`. -/
inductive CreateFail where
  | timers_fail
  | post_fail
  | event_set_fail
  | signals_fail
  | fibers_fail
  deriving DecidableEq, Repr

/-- The unwinding code of `nxt_event_engine_create` entered at `label`:
`timers_fail` and `post_fail` call the backend's `free`, then together with
`event_set_fail` and `signals_fail` free the signal set, destroy the
work-queue cache and free the fiber context, and all labels free the engine.
`nxt_free(NULL)` does nothing. -/
def create_unwind (label : CreateFail) (engine : nxt_event_engine_t) (world : World) :
    World :=
  let world :=
    match label with
    | .timers_fail | .post_fail => { world with backends := world.backends - 1 }
    | _ => world
  let world :=
    match label with
    | .fibers_fail => world
    | _ =>
      { world with
        signal_sets := world.signal_sets - (if engine.signals.isSome then 1 else 0)
        caches := world.caches - 1
        fibers := world.fibers - (if engine.fibers then 1 else 0) }
  { world with engines := world.engines - 1 }

/-- The function `nxt_event_engine_create`: the new engine, or `none` for
NULL, and the world it leaves.  `w` is the width in bits of `nxt_uint_t`,
the type of `batch`, `events` and of the product `4 * events`. -/
def nxt_event_engine_create (w : Nat) (env : Env) (world : World)
    (interface : nxt_event_interface_t) (signals : Option (List nxt_sig_event_t))
    (flags batch : Nat) : Option nxt_event_engine_t × World :=
  if env.zalloc_engine = false then
    (none, world)
  else
    let world := { world with engines := world.engines + 1 }
    let engine := { engine_zero with task := env.ident, batch := batch }
    if flags &&& NXT_ENGINE_FIBERS ≠ 0 ∧ env.fiber_main_create = false then
      (none, create_unwind .fibers_fail engine world)
    else
      let fibers := decide (flags &&& NXT_ENGINE_FIBERS ≠ 0)
      let engine := { engine with fibers := fibers }
      let world := { world with fibers := world.fibers + (if fibers then 1 else 0) }
      let engine := { engine with current_work_queue := fast_work_queue }
      let world := { world with caches := world.caches + 1 }
      if signals.isSome ∧ env.event_engine_signals = false then
        (none, create_unwind .signals_fail engine world)
      else
        let engine := { engine with
          signals := signals.map (fun sigev =>
            { sigev := sigev, handler := some .nxt_event_engine_signal_handler,
              process := 0 }) }
        let world := { world with
          signal_sets := world.signal_sets + (if signals.isSome then 1 else 0) }
        let start := decide (signals.isSome ∧ interface.signal_support = false)
        if start = true ∧ env.signals_start ≠ NXT_OK then
          (none, create_unwind .signals_fail engine world)
        else
          let world := { world with
            signal_processing := world.signal_processing || start }
          let events := if batch ≠ 0 then batch else 32
          if interface.create (4 * events % 2 ^ w) events ≠ NXT_OK then
            (none, create_unwind .event_set_fail engine world)
          else
            let engine := { engine with
              backend := some
                { changes := 4 * events % 2 ^ w, events := events, post_handler := none,
                  read_enabled := [] } }
            let world := { world with backends := world.backends + 1 }
            let engine := { engine with event := interface }
            let r := nxt_event_engine_post_init env engine world
            if r.1 ≠ NXT_OK then
              (none, create_unwind .post_fail r.2.1 r.2.2)
            else
              let engine := r.2.1
              let world := r.2.2
              if env.timers_init ≠ NXT_OK then
                (none, create_unwind .timers_fail engine world)
              else
                let engine := { engine with timers := some (4 * events % 2 ^ w) }
                let world := { world with timers := world.timers + 1 }
                let engine := { engine with max_connections := 0xffffffff }
                (some engine, world)

/-- The function `nxt_event_engine_signal_pipe_free`. -/
def nxt_event_engine_signal_pipe_free (engine : nxt_event_engine_t) (world : World) :
    World :=
  match engine.pipe with
  | none => world
  | some pipe =>
    let world :=
      if pipe.event.read_work_queue ≠ none then
        { world with pipe_fds := world.pipe_fds - 1 }
      else world
    { world with pipes := world.pipes - 1 }

/-- The function `nxt_event_engine_free`: the world after the engine is
gone. -/
def nxt_event_engine_free (engine : nxt_event_engine_t) (world : World) : World :=
  let world := nxt_event_engine_signal_pipe_free engine world
  let world := { world with
    signal_sets := world.signal_sets - (if engine.signals.isSome then 1 else 0) }
  let world := { world with caches := world.caches - 1 }
  let world := { world with backends := world.backends - 1 }
  { world with engines := world.engines - 1 }

/-- Modelled from the spec: `nxt_fd_read` of up to `size` bytes on the
non-blocking read end of a pipe that holds `pending`: the oldest bytes, at
most `size` of them, or an error return of -1 when the pipe is empty. -/
def nxt_fd_read_pipe (size : Nat) (pending : List Nat) : ReadResult × List Nat :=
  match pending with
  | [] => ({ n := -1, buf := fun _ => 0 }, [])
  | _ :: _ =>
    ({ n := ((pending.take size).length : Nat), buf := fun i => (pending.take size).getD i 0 },
      pending.drop size)

/-- The action of the dispatcher for a signal number on a table whose rows
before the terminator are `before`. -/
def table_action (task : Nat) (before : List nxt_sig_event_t) (signo : Nat) : Action :=
  match before.find? (fun sigev => decide (signo = sigev.signo)) with
  | some sigev => .invoke sigev.handler task signo sigev.name
  | none => .log_crit signo

/-- The signal dispatcher as the reader calls it from inside the engine: it
looks the signal up in the engine's signal set and the action is appended to
the log. -/
def dispatch_signal (signo : Nat) (s : Except Fault (nxt_event_engine_t × World)) :
    Except Fault (nxt_event_engine_t × World) :=
  match s with
  | .error f => .error f
  | .ok (engine, world) =>
    match nxt_event_engine_signal_handler engine.task engine.signals signo with
    | .error f => .error f
    | .ok action => .ok (engine, { world with calls := world.calls ++ [action] })

/-- Modelled from the spec: `nxt_locked_work_queue_move` transfers all entries
of the mailbox to the tail of the work queue `wq`, in order. -/
def nxt_locked_work_queue_move (engine : nxt_event_engine_t) (wq : Nat) :
    nxt_event_engine_t :=
  { engine with
    work_queue := set_queue engine.work_queue wq
      (engine.work_queue wq ++ engine.locked_work_queue)
    locked_work_queue := [] }

/-- The function `nxt_event_engine_post_handler`. -/
def nxt_event_engine_post_handler (engine : nxt_event_engine_t) : nxt_event_engine_t :=
  nxt_locked_work_queue_move engine fast_work_queue

/-- The mailbox drain as the reader calls it. -/
def dispatch_post (s : Except Fault (nxt_event_engine_t × World)) :
    Except Fault (nxt_event_engine_t × World) :=
  match s with
  | .error f => .error f
  | .ok (engine, world) => .ok (nxt_event_engine_post_handler engine, world)

/-- The first block of `nxt_event_engine_change`: when the old backend has no
signal support and the new one has, stop signal processing and run the reader
on `&engine->pipe->event`.  The reader reads `ev->fd`, so a null
`engine->pipe` is a null dereference. -/
def change_flush_signals (fuel : Nat) (engine : nxt_event_engine_t) (world : World)
    (interface : nxt_event_interface_t) : Except Fault (nxt_event_engine_t × World) :=
  if engine.event.signal_support = false ∧ interface.signal_support = true then
    let world := { world with signal_processing := false }
    match engine.pipe with
    | none => .error .null_deref
    | some pipe =>
      match nxt_event_engine_signal_pipe (nxt_fd_read_pipe 128) dispatch_signal
          dispatch_post fuel pipe.pending (.ok (engine, world)) with
      | none => .error .out_of_fuel
      | some (_, .error f) => .error f
      | some (pending, .ok (engine, world)) =>
        .ok ({ engine with pipe := some { pipe with pending := pending } }, world)
  else
    .ok (engine, world)

/-- The second block of `nxt_event_engine_change`: with a self-pipe and a new
backend that has `enable_post`, queue the close of the pipe on `fast` and
forget the pipe. -/
def change_defer_pipe_close (engine : nxt_event_engine_t)
    (interface : nxt_event_interface_t) : nxt_event_engine_t :=
  match engine.pipe with
  | some pipe =>
    if interface.enable_post ≠ none then
      let engine := nxt_work_queue_add engine fast_work_queue
        { handler := .nxt_event_engine_signal_pipe_close, task := engine.task,
          obj := .pipe pipe, data := .null }
      { engine with pipe := none }
    else engine
  | none => engine

/-- The function `nxt_event_engine_change`: a fault, or the result code with
the engine and the world it leaves.  `fuel` bounds the reads of the reader
that the first block may run. -/
def nxt_event_engine_change (w : Nat) (env : Env) (fuel : Nat)
    (engine : nxt_event_engine_t) (world : World) (interface : nxt_event_interface_t)
    (batch : Nat) : Except Fault (Int × nxt_event_engine_t × World) :=
  let engine := { engine with batch := batch }
  match change_flush_signals fuel engine world interface with
  | .error f => .error f
  | .ok (engine, world) =>
    let engine := change_defer_pipe_close engine interface
    let engine := { engine with backend := none }
    let world := { world with backends := world.backends - 1 }
    let events := if batch ≠ 0 then batch else 32
    if interface.create (4 * events % 2 ^ w) events ≠ NXT_OK then
      .ok (NXT_ERROR, engine, world)
    else
      let engine := { engine with
        backend := some
          { changes := 4 * events % 2 ^ w, events := events, post_handler := none,
            read_enabled := [] } }
      let world := { world with backends := world.backends + 1 }
      let engine := { engine with event := interface }
      let r := nxt_event_engine_post_init env engine world
      if r.1 ≠ NXT_OK then
        .ok (NXT_ERROR, r.2.1, r.2.2)
      else
        let engine := r.2.1
        let world := r.2.2
        match engine.signals with
        | some signals =>
          if engine.event.signal_support = false then
            .ok (env.signals_start,
              engine, { world with
                signal_processing := world.signal_processing || decide (env.signals_start = NXT_OK) })
          else
            .ok (NXT_OK, { engine with signals := some { signals with process := 0 } }, world)
        | none => .ok (NXT_OK, engine, world)

/-- The wake-up transport invariant: with an `enable_post` hook the
mailbox-drain handler is registered with the backend, the engine holds no
self-pipe and no pipe reader is registered; without the hook the engine holds
a self-pipe whose reader is registered for read-readiness on `fast`, and no
post handler is registered. -/
def transport_inv (engine : nxt_event_engine_t) : Prop :=
  match engine.event.enable_post with
  | some _ =>
    engine.pipe = none ∧
      ∃ b, engine.backend = some b ∧
        b.post_handler = some .nxt_event_engine_post_handler ∧
        ∀ ev ∈ b.read_enabled, ev.read_handler ≠ some .nxt_event_engine_signal_pipe
  | none =>
    ∃ pipe b, engine.pipe = some pipe ∧ engine.backend = some b ∧
      pipe.event.read_handler = some .nxt_event_engine_signal_pipe ∧
      pipe.event.read_work_queue = some fast_work_queue ∧
      pipe.event ∈ b.read_enabled ∧ b.post_handler = none

/-! ## Sample inputs -/

/-- An environment in which every call succeeds. -/
def env_ok : Env :=
  { zalloc_engine := true, ident := 1, fiber_main_create := true,
    event_engine_signals := true, signals_start := NXT_OK, zalloc_pipe := true,
    pipe_create := NXT_OK, pipe_fds := (3, 4), timers_init := NXT_OK }

/-- A backend without `enable_post` and without signal support. -/
def backend_plain : nxt_event_interface_t :=
  { create := fun _ _ => NXT_OK, enable_post := none, signal := false,
    signal_support := false }

/-- A backend with `enable_post` and without signal support. -/
def backend_post : nxt_event_interface_t :=
  { create := fun _ _ => NXT_OK, enable_post := some NXT_OK, signal := true,
    signal_support := false }

/-- A backend with `enable_post` and with signal support. -/
def backend_post_signals : nxt_event_interface_t :=
  { create := fun _ _ => NXT_OK, enable_post := some NXT_OK, signal := true,
    signal_support := true }

/-- A signal table with one row for signal 10 and the terminator. -/
def sample_signals : List nxt_sig_event_t :=
  [{ signo := 10, handler := .user 10, name := "SIGUSR1" },
   { signo := 0, handler := .user 0, name := "" }]

/-- A work entry of the host program. -/
def user_work (id : Nat) : nxt_work_t :=
  { handler := .user id, task := 0, obj := .null, data := .null }

/-- The engine that `nxt_event_engine_create` builds on `backend_post` with
the sample signal table. -/
def engine_post : nxt_event_engine_t :=
  ((nxt_event_engine_create 32 env_ok world_zero backend_post (some sample_signals) 0 0).1).getD
    engine_zero

/-- The engine that `nxt_event_engine_create` builds on `backend_plain` with
the sample signal table. -/
def engine_plain : nxt_event_engine_t :=
  ((nxt_event_engine_create 32 env_ok world_zero backend_plain (some sample_signals) 0 0).1).getD
    engine_zero

/-- The world after one successful `nxt_event_engine_create` without
fibers. -/
def world_one : World :=
  { engines := 1, fibers := 0, signal_sets := 1, caches := 1, backends := 1, pipes := 0,
    pipe_fds := 0, timers := 1, signal_processing := true, calls := [] }

/-- The world after one successful `nxt_event_engine_create` on
`backend_plain`: the self-pipe is live as well. -/
def world_plain : World :=
  { world_one with pipes := 1, pipe_fds := 1 }

/-- The engine `engine_plain` with two entries queued on `fast` and two bytes
of signal 10 pending in its self-pipe. -/
def engine_pending : nxt_event_engine_t :=
  let engine := nxt_work_queue_add engine_plain fast_work_queue (user_work 1)
  let engine := nxt_work_queue_add engine fast_work_queue (user_work 2)
  { engine with pipe := engine.pipe.map (fun pipe => { pipe with pending := [10, 10] }) }

/-- The self-pipe of `engine_plain`. -/
def pipe_plain : nxt_event_engine_pipe_t :=
  { event :=
      { fd := 3, read_work_queue := some fast_work_queue,
        read_handler := some .nxt_event_engine_signal_pipe,
        write_work_queue := some fast_work_queue,
        error_handler := some .nxt_event_engine_signal_pipe_error },
    fds := (3, 4), pending := [] }

/-- The engine of the first end-to-end scenario: the entries accept:A,
close:C, fast:F, read:R queued in this order, cursor on `fast`. -/
def engine_scenario : nxt_event_engine_t :=
  let engine := nxt_work_queue_add engine_plain accept_work_queue (user_work 1)
  let engine := nxt_work_queue_add engine close_work_queue (user_work 2)
  let engine := nxt_work_queue_add engine fast_work_queue (user_work 3)
  nxt_work_queue_add engine read_work_queue (user_work 4)

/-- The engine of the second end-to-end scenario: cursor on `write`, the
entries read:R1, write:W1, accept:A1 queued in this order. -/
def engine_round_robin : nxt_event_engine_t :=
  let engine := { engine_plain with current_work_queue := write_work_queue }
  let engine := nxt_work_queue_add engine read_work_queue (user_work 1)
  let engine := nxt_work_queue_add engine write_work_queue (user_work 2)
  nxt_work_queue_add engine accept_work_queue (user_work 3)

/-- A sequence of read results: one full buffer of bytes 10 with a zero byte
at offset 5, then a short read of the two bytes 12, 0. -/
def sample_reads (j : Nat) : ReadResult :=
  if j = 0 then { n := 128, buf := fun i => if i = 5 then 0 else 10 }
  else { n := 2, buf := fun i => if i = 0 then 12 else 0 }

/-- The engine that `nxt_event_engine_change` makes of `engine_plain` when it
moves it to `backend_post`. -/
def engine_changed : nxt_event_engine_t :=
  match nxt_event_engine_change 32 env_ok 1 engine_plain world_plain backend_post 0 with
  | .ok r => r.2.1
  | .error _ => engine_zero

/-! ## Request index -/

/-- Modelled from the spec: the result code `NXT_DECLINED`. -/
def NXT_DECLINED : Int := -3

/-- Truncation to `uint32_t`. -/
def u32 (x : Nat) : Nat := x % 2 ^ 32

/-- Modelled from the spec: the multiplier of Murmur2. -/
def murmur_m : Nat := 0x5bd1e995

/-- Modelled from the spec: one round of Murmur2 over the four key bytes
`p0 .. p3`, read as a little-endian word. -/
def murmur_mix (h p0 p1 p2 p3 : Nat) : Nat :=
  let k := u32 (p0 ||| p1 <<< 8 ||| p2 <<< 16 ||| p3 <<< 24)
  let k := u32 (k * murmur_m)
  let k := k ^^^ (k >>> 24)
  let k := u32 (k * murmur_m)
  let h := u32 (h * murmur_m)
  h ^^^ k

/-- Modelled from the spec: the `while (len >= 4)` loop of Murmur2; it
returns the hash so far and the bytes left over. -/
def murmur_body : List Nat → Nat → Nat × List Nat
  | p0 :: p1 :: p2 :: p3 :: rest, h => murmur_body rest (murmur_mix h p0 p1 p2 p3)
  | [p0, p1, p2], h => (h, [p0, p1, p2])
  | [p0, p1], h => (h, [p0, p1])
  | [p0], h => (h, [p0])
  | [], h => (h, [])

/-- Modelled from the spec: the `switch (len)` of Murmur2 over the last one
to three bytes. -/
def murmur_tail (tail : List Nat) (h : Nat) : Nat :=
  match tail with
  | [p0, p1, p2] => u32 ((h ^^^ u32 (p2 <<< 16) ^^^ u32 (p1 <<< 8) ^^^ p0) * murmur_m)
  | [p0, p1] => u32 ((h ^^^ u32 (p1 <<< 8) ^^^ p0) * murmur_m)
  | [p0] => u32 ((h ^^^ p0) * murmur_m)
  | _ => h

/-- Modelled from the spec: `nxt_murmur_hash2(data, len)`, Murmur2 with seed 0
over the bytes `data`. -/
def nxt_murmur_hash2 (data : List Nat) : Nat :=
  let h := 0 ^^^ u32 data.length
  let r := murmur_body data h
  let h := murmur_tail r.2 r.1
  let h := h ^^^ (h >>> 13)
  let h := u32 (h * murmur_m)
  h ^^^ (h >>> 15)

/-- The four bytes of a 32-bit `req_id` as they lie in memory, low byte
first. -/
def req_id_bytes (req_id : Nat) : List Nat :=
  [req_id % 256, req_id / 256 % 256, req_id / 65536 % 256, req_id / 16777216 % 256]

/-- Modelled from the spec: the query `nxt_lvlhsh_query_t`, as far as the
request index fills it in. -/
structure nxt_lvlhsh_query_t where
  key_hash : Nat
  key : List Nat
  replace : Bool
  value : Option nxt_req_conn_link_t
  deriving DecidableEq, Repr

/-- The key-test callback `nxt_req_conn_test`: it accepts every entry. -/
def nxt_req_conn_test (_lhq : nxt_lvlhsh_query_t) (_data : nxt_req_conn_link_t) : Int :=
  NXT_OK

/-- Modelled from the spec: an entry of the level hash answers a query when
its stored key hash is the query's and the `test` callback of the proto
accepts its value. -/
def lvlhsh_match (test : nxt_lvlhsh_query_t → nxt_req_conn_link_t → Int)
    (lhq : nxt_lvlhsh_query_t) (entry : Nat × nxt_req_conn_link_t) : Bool :=
  decide (entry.1 = lhq.key_hash) && decide (test lhq entry.2 = NXT_OK)

/-- Modelled from the spec: `nxt_lvlhsh_find`, the result code and the value
of the first entry that answers the query.  The level hash is the list of its
`(key_hash, value)` entries. -/
def nxt_lvlhsh_find (test : nxt_lvlhsh_query_t → nxt_req_conn_link_t → Int)
    (lh : List (Nat × nxt_req_conn_link_t)) (lhq : nxt_lvlhsh_query_t) :
    Int × Option nxt_req_conn_link_t :=
  match lh.find? (lvlhsh_match test lhq) with
  | some entry => (NXT_OK, some entry.2)
  | none => (NXT_DECLINED, none)

/-- Modelled from the spec: `nxt_lvlhsh_insert`.  With `replace` unset an
entry that answers the query makes the insert decline and leaves the map
unchanged; otherwise the new entry is added.  Allocation from the pool is
taken to succeed. -/
def nxt_lvlhsh_insert (test : nxt_lvlhsh_query_t → nxt_req_conn_link_t → Int)
    (lh : List (Nat × nxt_req_conn_link_t)) (lhq : nxt_lvlhsh_query_t) :
    Int × List (Nat × nxt_req_conn_link_t) :=
  match lhq.value with
  | none => (NXT_ERROR, lh)
  | some value =>
    match lh.find? (lvlhsh_match test lhq) with
    | some _ =>
      if lhq.replace then
        (NXT_OK, lh.map (fun entry =>
          if lvlhsh_match test lhq entry then (entry.1, value) else entry))
      else (NXT_DECLINED, lh)
    | none => (NXT_OK, lh ++ [(lhq.key_hash, value)])

/-- Modelled from the spec: `nxt_lvlhsh_delete` removes the first entry that
answers the query and returns its value. -/
def nxt_lvlhsh_delete (test : nxt_lvlhsh_query_t → nxt_req_conn_link_t → Int)
    (lh : List (Nat × nxt_req_conn_link_t)) (lhq : nxt_lvlhsh_query_t) :
    Int × Option nxt_req_conn_link_t × List (Nat × nxt_req_conn_link_t) :=
  match lh.find? (lvlhsh_match test lhq) with
  | some entry => (NXT_OK, some entry.2, lh.eraseP (lvlhsh_match test lhq))
  | none => (NXT_DECLINED, none, lh)

/-- The function `nxt_event_engine_request_add`; a failed insert only logs a
warning. -/
def nxt_event_engine_request_add (engine : nxt_event_engine_t)
    (rc : nxt_req_conn_link_t) : nxt_event_engine_t :=
  let lhq : nxt_lvlhsh_query_t :=
    { key_hash := nxt_murmur_hash2 (req_id_bytes rc.req_id), key := req_id_bytes rc.req_id,
      replace := false, value := some rc }
  { engine with requests := (nxt_lvlhsh_insert nxt_req_conn_test engine.requests lhq).2 }

/-- The function `nxt_event_engine_request_find`. -/
def nxt_event_engine_request_find (engine : nxt_event_engine_t) (req_id : Nat) :
    Option nxt_req_conn_link_t :=
  let lhq : nxt_lvlhsh_query_t :=
    { key_hash := nxt_murmur_hash2 (req_id_bytes req_id), key := req_id_bytes req_id,
      replace := false, value := none }
  let r := nxt_lvlhsh_find nxt_req_conn_test engine.requests lhq
  if r.1 = NXT_OK then r.2 else none

/-- The function `nxt_event_engine_request_remove`; a failed delete only logs
a warning. -/
def nxt_event_engine_request_remove (engine : nxt_event_engine_t)
    (rc : nxt_req_conn_link_t) : nxt_event_engine_t :=
  let lhq : nxt_lvlhsh_query_t :=
    { key_hash := nxt_murmur_hash2 (req_id_bytes rc.req_id), key := req_id_bytes rc.req_id,
      replace := false, value := none }
  { engine with requests := (nxt_lvlhsh_delete nxt_req_conn_test engine.requests lhq).2.2 }

/-- The function `nxt_event_engine_request_find_remove`: the engine after the
call and the link returned (`none` for NULL). -/
def nxt_event_engine_request_find_remove (engine : nxt_event_engine_t) (req_id : Nat) :
    nxt_event_engine_t × Option nxt_req_conn_link_t :=
  let lhq : nxt_lvlhsh_query_t :=
    { key_hash := nxt_murmur_hash2 (req_id_bytes req_id), key := req_id_bytes req_id,
      replace := false, value := none }
  let r := nxt_lvlhsh_delete nxt_req_conn_test engine.requests lhq
  ({ engine with requests := r.2.2 }, if r.1 = NXT_OK then r.2.1 else none)

/-- The hash under which the request index files a `req_id`. -/
def req_hash (req_id : Nat) : Nat :=
  nxt_murmur_hash2 (req_id_bytes req_id)

/-- The entry under which the request index files a link. -/
def req_entry (rc : nxt_req_conn_link_t) : Nat × nxt_req_conn_link_t :=
  (req_hash rc.req_id, rc)

/-- The query that the request functions build for a `req_id`. -/
def req_query (req_id : Nat) (value : Option nxt_req_conn_link_t) : nxt_lvlhsh_query_t :=
  { key_hash := nxt_murmur_hash2 (req_id_bytes req_id), key := req_id_bytes req_id,
    replace := false, value := value }

/-- Three links with the ids 1, 2 and 3. -/
def sample_links : List nxt_req_conn_link_t :=
  [{ req_id := 1, conn := 10 }, { req_id := 2, conn := 20 }, { req_id := 3, conn := 30 }]

/-! ## Selection rule -/

theorem set_queue_same (q : Nat → List nxt_work_t) (i : Nat) (v : List nxt_work_t) :
    set_queue q i v i = v := by
  simp [set_queue]

theorem set_queue_other (q : Nat → List nxt_work_t) (i j : Nat) (v : List nxt_work_t)
    (h : j ≠ i) : set_queue q i v j = q j := by
  simp [set_queue, h]

/-- The search visits the remaining `r` candidates of the cyclic order and
stops on the first non-empty one, or on `last` when there is none. -/
theorem queue_pop_search_eq (last : Nat) (hl : last ≤ 7) :
    ∀ (r fuel : Nat) (engine : nxt_event_engine_t), 1 ≤ r → r ≤ 8 → r ≤ fuel →
      engine.current_work_queue = (last + (8 - r)) % 8 →
      queue_pop_search last fuel engine =
        match ((List.range' (8 - r) r).map (fun k => (last + 1 + k) % 8)).find?
            (fun i => !(engine.work_queue i).isEmpty) with
        | some wq => some ({ engine with current_work_queue := wq }, some wq)
        | none => some ({ engine with current_work_queue := last }, none) := by
  intro r
  induction r with
  | zero => intro fuel engine h1; omega
  | succ r ih =>
    intro fuel engine _ h8 hf hc
    obtain ⟨f, rfl⟩ : ∃ f, fuel = f + 1 := ⟨fuel - 1, by omega⟩
    have hwq : (if engine.current_work_queue + 1 > close_work_queue then fast_work_queue
        else engine.current_work_queue + 1) = (last + 1 + (8 - (r + 1))) % 8 := by
      simp only [close_work_queue, fast_work_queue]
      split_ifs <;> omega
    simp only [queue_pop_search, hwq, List.range'_succ, List.map_cons, List.find?_cons]
    cases hq : (engine.work_queue ((last + 1 + (8 - (r + 1))) % 8)).isEmpty with
    | false => simp
    | true =>
      simp only [Bool.true_eq_false, if_false, Bool.not_true]
      by_cases hr : r = 0
      · subst hr
        have : (last + 1 + (8 - (0 + 1))) % 8 = last := by omega
        simp [this]
      · have hne : (last + 1 + (8 - (r + 1))) % 8 ≠ last := by omega
        rw [if_pos hne]
        have := ih f { engine with current_work_queue := (last + 1 + (8 - (r + 1))) % 8 }
          (by omega) (by omega) (by omega) (by simp only; omega)
        rw [this]
        have e1 : 8 - (r + 1) + 1 = 8 - r := by omega
        rw [e1]

theorem mem_cyclic_order (cursor i : Nat) (hi : i ≤ 7) : i ∈ cyclic_order cursor := by
  simp only [cyclic_order, List.mem_map, List.mem_range]
  exact ⟨(i + 8 - (cursor + 1) % 8) % 8, by omega, by omega⟩

theorem cyclic_order_le (cursor i : Nat) (hi : i ∈ cyclic_order cursor) : i ≤ 7 := by
  simp only [cyclic_order, List.mem_map, List.mem_range] at hi
  obtain ⟨k, _, rfl⟩ := hi
  omega

theorem nxt_work_queue_pop_cursor (engine : nxt_event_engine_t) (wq : Nat) :
    (nxt_work_queue_pop engine wq).1.current_work_queue = engine.current_work_queue := by
  unfold nxt_work_queue_pop
  split <;> rfl

theorem nxt_work_queue_pop_some (engine : nxt_event_engine_t) (wq : Nat)
    (h : (engine.work_queue wq).isEmpty = false) :
    (nxt_work_queue_pop engine wq).2 ≠ none := by
  unfold nxt_work_queue_pop
  split
  · rename_i h0
    simp [h0] at h
  · simp

/-- The code agrees with the selection rule of the spec. -/
theorem queue_pop_eq_spec (engine : nxt_event_engine_t) (fuel : Nat)
    (hc : engine.current_work_queue ≤ close_work_queue) (hf : 8 ≤ fuel) :
    nxt_event_engine_queue_pop fuel engine = some (spec_queue_pop engine) := by
  have hs := queue_pop_search_eq engine.current_work_queue hc 8 fuel engine
    (by omega) (by omega) hf (by simp only [close_work_queue] at hc; omega)
  have hr : (List.range' (8 - 8) 8).map (fun k => (engine.current_work_queue + 1 + k) % 8)
      = cyclic_order engine.current_work_queue := by
    simp [cyclic_order, List.range_eq_range']
  rw [hr] at hs
  unfold nxt_event_engine_queue_pop spec_queue_pop
  cases h1 : (engine.work_queue engine.current_work_queue).isEmpty with
  | false => simp only [h1, Bool.false_eq_true, if_false, if_true]
  | true =>
    cases h2 : (engine.work_queue fast_work_queue).isEmpty with
    | false => simp only [h1, h2, Bool.false_eq_true, Bool.true_eq_false, if_false, if_true]
    | true =>
      simp only [h1, h2, if_true, Bool.true_eq_false, if_false, hs]
      cases (cyclic_order engine.current_work_queue).find?
          (fun i => !(engine.work_queue i).isEmpty) with
      | none => rfl
      | some wq => rfl

/-- The rule returns nothing exactly when all eight queues are empty. -/
theorem spec_queue_pop_none_iff (engine : nxt_event_engine_t)
    (hc : engine.current_work_queue ≤ close_work_queue) :
    (spec_queue_pop engine).2 = none ↔
      ∀ i, i ≤ close_work_queue → engine.work_queue i = [] := by
  simp only [close_work_queue] at hc ⊢
  unfold spec_queue_pop
  cases h1 : (engine.work_queue engine.current_work_queue).isEmpty with
  | false =>
    simp only [if_true]
    constructor
    · intro h
      exact absurd h (nxt_work_queue_pop_some _ _ h1)
    · intro h
      rw [h _ hc] at h1
      simp at h1
  | true =>
    cases h2 : (engine.work_queue fast_work_queue).isEmpty with
    | false =>
      simp only [Bool.true_eq_false, if_false, if_true]
      constructor
      · intro h
        exact absurd h (nxt_work_queue_pop_some _ _ h2)
      · intro h
        rw [h fast_work_queue (by simp [fast_work_queue])] at h2
        simp at h2
    | true =>
      simp only [Bool.true_eq_false, if_false]
      cases hf : (cyclic_order engine.current_work_queue).find?
          (fun i => !(engine.work_queue i).isEmpty) with
      | none =>
        simp only [true_iff]
        intro i hi
        have := List.find?_eq_none.1 hf i (mem_cyclic_order _ i hi)
        simpa using this
      | some wq =>
        have hp := List.find?_some hf
        have hm := cyclic_order_le _ _ (List.mem_of_find?_eq_some hf)
        simp only [Bool.not_eq_true'] at hp
        constructor
        · intro h
          exact absurd h (nxt_work_queue_pop_some _ _ hp)
        · intro h
          rw [h wq hm] at hp
          simp at hp

/-- The cursor stays inside the eight queues. -/
theorem spec_queue_pop_cursor_le (engine : nxt_event_engine_t)
    (hc : engine.current_work_queue ≤ close_work_queue) :
    (spec_queue_pop engine).1.current_work_queue ≤ close_work_queue := by
  unfold spec_queue_pop
  split_ifs
  · rw [nxt_work_queue_pop_cursor]; exact hc
  · rw [nxt_work_queue_pop_cursor]; exact hc
  · split
    · rename_i wq hf
      rw [nxt_work_queue_pop_cursor]
      exact cyclic_order_le _ _ (List.mem_of_find?_eq_some hf)
    · simp [close_work_queue, fast_work_queue]


/-- When the rule returns nothing the cursor is on `fast` and the queues are
untouched. -/
theorem spec_queue_pop_none (engine : nxt_event_engine_t)
    (h : (spec_queue_pop engine).2 = none) :
    (spec_queue_pop engine).1.current_work_queue = fast_work_queue ∧
      (spec_queue_pop engine).1.work_queue = engine.work_queue := by
  unfold spec_queue_pop at h ⊢
  split_ifs at h ⊢ with h1 h2
  · exact absurd h (nxt_work_queue_pop_some _ _ h1)
  · exact absurd h (nxt_work_queue_pop_some _ _ h2)
  · split at h
    · rename_i wq hfind
      have hp := List.find?_some hfind
      simp only [Bool.not_eq_true'] at hp
      exact absurd h (nxt_work_queue_pop_some _ _ hp)
    · rename_i hfind
      simp [hfind]

/-- C1: for every engine whose cursor points at one of the eight queues,
`nxt_event_engine_queue_pop` returns within eight rounds of its search, and
what it returns is the spec's selection rule `spec_queue_pop`: the head of the
cursor queue if that is non-empty (cursor unchanged), else the head of `fast`
if non-empty (cursor unchanged), else the head of the first non-empty queue in
the cyclic order after the cursor (the cursor moves there).  The cursor stays
inside the eight queues; no handler is returned exactly when all eight queues
are empty, and then the cursor is back on `fast`. -/
theorem C1_queue_pop_selection_rule (engine : nxt_event_engine_t) (fuel : Nat)
    (hc : engine.current_work_queue ≤ close_work_queue) (hf : 8 ≤ fuel) :
    nxt_event_engine_queue_pop fuel engine = some (spec_queue_pop engine) ∧
    (spec_queue_pop engine).1.current_work_queue ≤ close_work_queue ∧
    ((spec_queue_pop engine).2 = none ↔
      ∀ i, i ≤ close_work_queue → engine.work_queue i = []) ∧
    ((spec_queue_pop engine).2 = none →
      (spec_queue_pop engine).1.current_work_queue = fast_work_queue ∧
      (spec_queue_pop engine).1.work_queue = engine.work_queue) := by
  exact ⟨queue_pop_eq_spec engine fuel hc hf, spec_queue_pop_cursor_le engine hc,
    spec_queue_pop_none_iff engine hc, spec_queue_pop_none engine⟩

/-! ## Drain order -/

/-- A search over the images of `0 .. n` stops at the first index whose image
satisfies the test. -/
theorem find_map_range {p : Nat → Bool} {f : Nat → Nat} :
    ∀ (n j : Nat), ((List.range n).map f).find? p = some j →
      ∃ k, k < n ∧ j = f k ∧ p j = true ∧ ∀ k2, k2 < k → p (f k2) = false := by
  intro n
  induction n with
  | zero => intro j h; simp at h
  | succ n ih =>
    intro j h
    rw [List.range_succ, List.map_append, List.find?_append] at h
    cases hn : ((List.range n).map f).find? p with
    | some a =>
      rw [hn] at h
      simp only [Option.or] at h
      obtain ⟨k, hk, rest⟩ := ih j (by rw [hn, h])
      exact ⟨k, by omega, rest⟩
    | none =>
      rw [hn] at h
      simp only [Option.or, List.map_cons, List.map_nil, List.find?_cons] at h
      cases hp : p (f n) with
      | false => simp [hp] at h
      | true =>
        simp only [hp, Option.some.injEq] at h
        refine ⟨n, by omega, h.symm, by rw [← h]; exact hp, ?_⟩
        intro k2 hk2
        have := List.find?_eq_none.1 hn (f k2)
          (List.mem_map.2 ⟨k2, List.mem_range.2 hk2, rfl⟩)
        simpa using this

theorem nxt_work_queue_pop_cons (engine : nxt_event_engine_t) (wq : Nat)
    (work : nxt_work_t) (next : List nxt_work_t) (h : engine.work_queue wq = work :: next) :
    nxt_work_queue_pop engine wq =
      ({ engine with work_queue := set_queue engine.work_queue wq next }, some work) := by
  unfold nxt_work_queue_pop
  rw [h]

theorem isEmpty_false_cons {l : List nxt_work_t} (h : l.isEmpty = false) :
    ∃ work next, l = work :: next := by
  cases l with
  | nil => simp at h
  | cons a b => exact ⟨a, b, rfl⟩

/-- Under the drain invariant the selection rule pops the first non-empty
queue in class order and leaves the cursor on it. -/
theorem spec_queue_pop_first (engine : nxt_event_engine_t) (hinv : drain_inv engine)
    (e2 : nxt_event_engine_t) (work : nxt_work_t)
    (h : spec_queue_pop engine = (e2, some work)) :
    ∃ j next, j ≤ 7 ∧ (∀ i, i < j → engine.work_queue i = []) ∧
      engine.work_queue j = work :: next ∧
      e2.work_queue = set_queue engine.work_queue j next ∧
      e2.current_work_queue = j := by
  obtain ⟨hc, hbelow⟩ := hinv
  unfold spec_queue_pop at h
  split_ifs at h with h1 h2
  · obtain ⟨w, next, hq⟩ := isEmpty_false_cons h1
    rw [nxt_work_queue_pop_cons _ _ _ _ hq] at h
    simp only [Prod.mk.injEq, Option.some.injEq] at h
    obtain ⟨rfl, rfl⟩ := h
    exact ⟨engine.current_work_queue, next, hc, hbelow, hq, rfl, rfl⟩
  · exfalso
    by_cases hz : engine.current_work_queue = 0
    · rw [hz] at h1
      simp only [fast_work_queue] at h2
      rw [h2] at h1
      simp at h1
    · have := hbelow 0 (by omega)
      simp [fast_work_queue, this] at h2
  · split at h
    · rename_i wq hfind
      obtain ⟨k, hk, hwq, hp, hbefore⟩ := find_map_range 8 wq hfind
      simp only [Bool.not_eq_true', Bool.not_eq_false'] at hp hbefore
      have h1e : engine.work_queue engine.current_work_queue = [] := by
        simpa using h1
      have hle : ∀ i, i ≤ engine.current_work_queue → engine.work_queue i = [] := by
        intro i hi
        rcases Nat.lt_or_eq_of_le hi with h | h
        · exact hbelow i h
        · rw [h]; exact h1e
      have hgt : engine.current_work_queue < wq := by
        by_contra hcon
        have := hle wq (by omega)
        rw [this] at hp
        simp at hp
      have hwq2 : wq = engine.current_work_queue + 1 + k := by omega
      obtain ⟨w, next, hq⟩ := isEmpty_false_cons hp
      rw [nxt_work_queue_pop_cons { engine with current_work_queue := wq } wq w next hq] at h
      simp only [Prod.mk.injEq, Option.some.injEq] at h
      obtain ⟨rfl, rfl⟩ := h
      refine ⟨wq, next, by omega, ?_, hq, rfl, rfl⟩
      intro i hi
      by_cases hic : i ≤ engine.current_work_queue
      · exact hle i hic
      · have := hbefore (i - (engine.current_work_queue + 1)) (by omega)
        have e : (engine.current_work_queue + 1 + (i - (engine.current_work_queue + 1))) % 8
            = i := by omega
        rw [e] at this
        simpa using this
    · simp at h

/-- Popping the first non-empty queue takes the first entry of the class
order. -/
theorem class_order_pop (q : Nat → List nxt_work_t) (j : Nat) (work : nxt_work_t)
    (next : List nxt_work_t) (hj : j ≤ 7) (hbelow : ∀ i, i < j → q i = [])
    (hq : q j = work :: next) :
    class_order q = work :: class_order (set_queue q j next) := by
  interval_cases j
  all_goals
    simp [class_order, set_queue, fast_work_queue, accept_work_queue, read_work_queue,
      socket_work_queue, connect_work_queue, write_work_queue, shutdown_work_queue,
      close_work_queue, hq, hbelow]

theorem class_order_nil (q : Nat → List nxt_work_t) (h : ∀ i, i ≤ close_work_queue → q i = []) :
    class_order q = [] := by
  simp only [close_work_queue] at h
  simp [class_order, fast_work_queue, accept_work_queue, read_work_queue,
      socket_work_queue, connect_work_queue, write_work_queue, shutdown_work_queue,
      close_work_queue, h]

/-- A drain that starts under the invariant runs the class order. -/
theorem drain_class_order
    (run : nxt_work_t → nxt_event_engine_t → nxt_event_engine_t)
    (hrun : ∀ work e, (run work e).work_queue = e.work_queue ∧
      (run work e).current_work_queue = e.current_work_queue)
    (pop_fuel : Nat) (hpop : 8 ≤ pop_fuel) :
    ∀ (fuel : Nat) (engine : nxt_event_engine_t) (ran : List nxt_work_t),
      drain_inv engine → (class_order engine.work_queue).length < fuel →
      ∃ e2, nxt_event_engine_start_drain run pop_fuel fuel engine ran =
          some (e2, ran ++ class_order engine.work_queue) ∧
        (∀ i, i ≤ close_work_queue → e2.work_queue i = []) ∧
        e2.current_work_queue = fast_work_queue := by
  intro fuel
  induction fuel with
  | zero => intro engine ran _ h; omega
  | succ fuel ih =>
    intro engine ran hinv hlen
    have hpopeq := queue_pop_eq_spec engine pop_fuel
      (by simp only [close_work_queue]; exact hinv.1) hpop
    unfold nxt_event_engine_start_drain
    rw [hpopeq]
    cases hsp : spec_queue_pop engine with
    | mk e1 res =>
      cases res with
      | none =>
        have hnone : (spec_queue_pop engine).2 = none := by rw [hsp]
        have hall := (spec_queue_pop_none_iff engine
          (by simp only [close_work_queue]; exact hinv.1)).1 hnone
        have hrest := (spec_queue_pop_none engine hnone)
        rw [hsp] at hrest
        refine ⟨e1, ?_, ?_, hrest.1⟩
        · simp [class_order_nil _ hall]
        · intro i hi
          rw [hrest.2]
          exact hall i hi
      | some work =>
        obtain ⟨j, next, hj, hbelow, hq, hq2, hcur⟩ :=
          spec_queue_pop_first engine hinv e1 work hsp
        have hco := class_order_pop engine.work_queue j work next hj hbelow hq
        have hinv2 : drain_inv (run work e1) := by
          refine ⟨by rw [(hrun work e1).2, hcur]; exact hj, ?_⟩
          intro i hi
          rw [(hrun work e1).2, hcur] at hi
          rw [(hrun work e1).1, hq2, set_queue_other _ _ _ _ (by omega)]
          exact hbelow i hi
        have hlen2 : (class_order (run work e1).work_queue).length < fuel := by
          rw [(hrun work e1).1, hq2]
          rw [hco] at hlen
          simp only [List.length_cons] at hlen
          omega
        obtain ⟨e2, he2, hrest⟩ := ih (run work e1) (ran ++ [work]) hinv2 hlen2
        refine ⟨e2, ?_, hrest⟩
        simp only
        rw [he2, (hrun work e1).1, hq2, hco]
        simp

/-- C2: starting with the cursor on `fast` and with handlers that leave the
work queues and the cursor alone, the drain phase of `nxt_event_engine_start`
ends (for any fuel above the number of queued entries) and has then invoked
the handlers of exactly the queued entries, in class order fast, accept, read,
socket, connect, write, shutdown, close and in queue order within each class;
all eight queues are empty afterwards and the cursor is on `fast` again. -/
theorem C2_drain_priority_order
    (run : nxt_work_t → nxt_event_engine_t → nxt_event_engine_t)
    (engine : nxt_event_engine_t) (pop_fuel fuel : Nat)
    (hcur : engine.current_work_queue = fast_work_queue)
    (hrun : ∀ work e, (run work e).work_queue = e.work_queue ∧
      (run work e).current_work_queue = e.current_work_queue)
    (hpop : 8 ≤ pop_fuel) (hfuel : (class_order engine.work_queue).length < fuel) :
    ∃ e2, nxt_event_engine_start_drain run pop_fuel fuel engine [] =
        some (e2, class_order engine.work_queue) ∧
      (∀ i, i ≤ close_work_queue → e2.work_queue i = []) ∧
      e2.current_work_queue = fast_work_queue := by
  have hinv : drain_inv engine := by
    refine ⟨by rw [hcur]; simp [fast_work_queue], ?_⟩
    intro i hi
    rw [hcur] at hi
    simp [fast_work_queue] at hi
  simpa using drain_class_order run hrun pop_fuel hpop fuel engine [] hinv hfuel

/-! ## Self-pipe reader -/

theorem signal_pipe_scan_eq {σ : Type} (signal_handler : Nat → σ → σ) (r : ReadResult)
    (post : Bool) (s : σ) :
    signal_pipe_scan signal_handler r post s =
      (bytes_of r).foldl (scan_step signal_handler) (post, s) := by
  unfold signal_pipe_scan bytes_of
  rw [List.foldl_map]
  rfl

/-- Scanning a run of bytes: the flag records a zero byte, the state has seen
the non-zero bytes in order. -/
theorem foldl_scan_step {σ : Type} (signal_handler : Nat → σ → σ) :
    ∀ (bytes : List Nat) (post : Bool) (s : σ),
      bytes.foldl (scan_step signal_handler) (post, s) =
        (post || decide (0 ∈ bytes),
          (bytes.filter (fun b => decide (b ≠ 0))).foldl (fun s b => signal_handler b s) s) := by
  intro bytes
  induction bytes with
  | nil => intro post s; simp
  | cons b bytes ih =>
    intro post s
    rw [List.foldl_cons]
    by_cases hb : b = 0
    · subst hb
      simp [scan_step, ih]
    · have hb2 : ¬ (0 = b) := fun h => hb h.symm
      simp [scan_step, ih, hb, hb2]

/-- The reader loop on a sequence of read results: it makes `k + 1` reads
when the first `k` fill the buffer and the next one does not. -/
theorem signal_pipe_loop_reads {σ : Type} (reads : Nat → ReadResult)
    (signal_handler : Nat → σ → σ) :
    ∀ (k fuel j : Nat) (post : Bool) (s : σ),
      (∀ i, i < k → (reads (j + i)).n = 128) → (reads (j + k)).n ≠ 128 → k < fuel →
      signal_pipe_loop (read_nth reads) signal_handler fuel j post s =
        some (j + k + 1,
          (((List.range (k + 1)).map (fun i => bytes_of (reads (j + i)))).flatten).foldl
            (scan_step signal_handler) (post, s)) := by
  intro k
  induction k with
  | zero =>
    intro fuel j post s _ hshort hfuel
    obtain ⟨f, rfl⟩ : ∃ f, fuel = f + 1 := ⟨fuel - 1, by omega⟩
    simp only [Nat.add_zero] at hshort
    have hr : ((List.range (0 + 1)).map (fun i => bytes_of (reads (j + i)))).flatten
        = bytes_of (reads j) := by
      simp [List.range_succ]
    rw [hr]
    simp [signal_pipe_loop, read_nth, hshort, signal_pipe_scan_eq]
  | succ k ih =>
    intro fuel j post s hfull hshort hfuel
    obtain ⟨f, rfl⟩ : ∃ f, fuel = f + 1 := ⟨fuel - 1, by omega⟩
    have h0 : (reads j).n = 128 := by simpa using hfull 0 (by omega)
    have hrec := ih f (j + 1) (signal_pipe_scan signal_handler (reads j) post s).1
      (signal_pipe_scan signal_handler (reads j) post s).2
      (by intro i hi; have := hfull (i + 1) (by omega); rwa [show j + 1 + i = j + (i + 1) by omega])
      (by rwa [show j + 1 + k = j + (k + 1) by omega]) (by omega)
    simp only [signal_pipe_loop, read_nth, h0, if_true]
    rw [hrec, signal_pipe_scan_eq]
    have hr : (List.range (k + 1 + 1)).map (fun i => bytes_of (reads (j + i))) =
        bytes_of (reads j) :: (List.range (k + 1)).map (fun i => bytes_of (reads (j + 1 + i))) := by
      rw [List.range_succ_eq_map]
      simp only [List.map_cons, List.map_map, Nat.add_zero]
      congr 1
      apply List.map_congr_left
      intro i _
      simp only [Function.comp]
      rw [show j + 1 + i = j + (i + 1) by omega]
    rw [hr, List.flatten_cons, List.foldl_append]
    congr 2
    omega

/-- C3: on any sequence of read results whose first `k` reads fill the
128-byte buffer and whose next read returns fewer than 128 bytes (an error
return included), `nxt_event_engine_signal_pipe` makes exactly these `k + 1`
reads; it has then passed every non-zero byte read to the signal dispatcher,
once each and in the order read, and after all of them it has called the
mailbox-drain handler once if a zero byte was read and not at all
otherwise. -/
theorem C3_signal_pipe_reader {σ : Type} (reads : Nat → ReadResult)
    (signal_handler : Nat → σ → σ) (post_handler : σ → σ) (s : σ) (k fuel : Nat)
    (hfull : ∀ j, j < k → (reads j).n = 128) (hshort : (reads k).n < 128)
    (hfuel : k < fuel) :
    nxt_event_engine_signal_pipe (read_nth reads) signal_handler post_handler fuel 0 s =
      some (k + 1,
        if 0 ∈ bytes_upto reads k then
          post_handler (((bytes_upto reads k).filter (fun b => decide (b ≠ 0))).foldl
            (fun s b => signal_handler b s) s)
        else
          ((bytes_upto reads k).filter (fun b => decide (b ≠ 0))).foldl
            (fun s b => signal_handler b s) s) := by
  have h := signal_pipe_loop_reads reads signal_handler k fuel 0 false s
    (by intro i hi; simpa using hfull i hi) (by simp only [Nat.zero_add]; omega) hfuel
  simp only [Nat.zero_add] at h
  unfold nxt_event_engine_signal_pipe
  rw [h, foldl_scan_step]
  simp only [bytes_upto, Bool.false_or, decide_eq_true_eq]

/-! ## Signal dispatcher -/

/-- The walk over a table stops on the first matching row before the
terminator. -/
theorem signal_handler_search_eq (signo : Nat) (terminator : nxt_sig_event_t)
    (hterm : terminator.signo = 0) (rest : List nxt_sig_event_t) :
    ∀ (before : List nxt_sig_event_t), (∀ sigev ∈ before, sigev.signo ≠ 0) →
      signal_handler_search signo (before ++ terminator :: rest) =
        some (before.find? (fun sigev => decide (signo = sigev.signo))) := by
  intro before
  induction before with
  | nil => intro _; simp [signal_handler_search, hterm]
  | cons a before ih =>
    intro h
    have ha : a.signo ≠ 0 := h a (by simp)
    have hrest := ih (fun x hx => h x (by simp [hx]))
    simp only [List.cons_append, signal_handler_search, ha, if_false, List.find?_cons]
    by_cases hs : signo = a.signo
    · simp [hs]
    · simp [hs, hrest]

/-- C4: for every signal table whose rows before the first row with signo 0
are `before`, and every signal number, the dispatcher invokes the handler of
the first row of `before` whose signo equals the signal number, with
`(task, signo, name of that row)`, and nothing else; when no row of `before`
matches it invokes no handler and logs at CRIT level. -/
theorem C4_signal_dispatch (task signo : Nat) (before rest : List nxt_sig_event_t)
    (terminator : nxt_sig_event_t) (handler : Option nxt_work_handler_t) (process : Nat)
    (hbefore : ∀ sigev ∈ before, sigev.signo ≠ 0) (hterm : terminator.signo = 0) :
    nxt_event_engine_signal_handler task
        (some { sigev := before ++ terminator :: rest, handler := handler, process := process })
        signo =
      match before.find? (fun sigev => decide (signo = sigev.signo)) with
      | some sigev => .ok (.invoke sigev.handler task signo sigev.name)
      | none => .ok (.log_crit signo) := by
  unfold nxt_event_engine_signal_handler
  simp only [signal_handler_search_eq signo terminator hterm rest before hbefore]
  cases before.find? (fun sigev => decide (signo = sigev.signo)) <;> rfl

/-! ## Engine lifecycle -/

/-- The invariant looks only at the vtable, the pipe and the backend
state. -/
theorem transport_inv_congr (e1 e2 : nxt_event_engine_t)
    (hev : e2.event.enable_post = e1.event.enable_post) (hpipe : e2.pipe = e1.pipe)
    (hb : e2.backend = e1.backend) (h : transport_inv e1) : transport_inv e2 := by
  unfold transport_inv at h ⊢
  rw [hev, hpipe, hb]
  exact h

/-- A successful pipe creation leaves the engine with a pipe whose reader is
enabled for read-readiness on `fast`. -/
theorem signal_pipe_create_ok (env : Env) (engine : nxt_event_engine_t) (world : World)
    (h : (nxt_event_engine_signal_pipe_create env engine world).1 = NXT_OK) :
    ∃ pipe, (nxt_event_engine_signal_pipe_create env engine world).2.1 =
        nxt_fd_event_enable_read { engine with pipe := some pipe } pipe.event ∧
      pipe.event.read_handler = some .nxt_event_engine_signal_pipe ∧
      pipe.event.read_work_queue = some fast_work_queue := by
  unfold nxt_event_engine_signal_pipe_create at h ⊢
  split_ifs at h ⊢ with h1 h2
  · simp [NXT_OK, NXT_ERROR] at h
  · simp [NXT_OK, NXT_ERROR] at h
  · exact ⟨_, rfl, rfl, rfl⟩

/-- A successful post-init on a fresh backend state sets up exactly one
wake-up transport. -/
theorem post_init_transport (env : Env) (engine : nxt_event_engine_t) (world : World)
    (b : Backend) (hb : engine.backend = some b) (hpost : b.post_handler = none)
    (hread : b.read_enabled = [])
    (hpipe : engine.event.enable_post ≠ none → engine.pipe = none)
    (hok : (nxt_event_engine_post_init env engine world).1 = NXT_OK) :
    transport_inv (nxt_event_engine_post_init env engine world).2.1 ∧
      (nxt_event_engine_post_init env engine world).2.1.event = engine.event ∧
      (nxt_event_engine_post_init env engine world).2.1.signals = engine.signals := by
  unfold nxt_event_engine_post_init at hok ⊢
  cases hep : engine.event.enable_post with
  | some rc =>
    simp only [hep] at hok ⊢
    have hp := hpipe (by rw [hep]; simp)
    split_ifs at hok ⊢ with hrc
    · refine ⟨?_, rfl, rfl⟩
      unfold transport_inv
      simp only [hep, hb, Option.map_some']
      exact ⟨hp, _, rfl, rfl, by simp [hread]⟩
    · exact absurd hok hrc
  | none =>
    simp only [hep] at hok ⊢
    by_cases hr : (nxt_event_engine_signal_pipe_create env engine world).1 = NXT_OK
    · simp only [hr, ne_eq, not_true_eq_false, if_false]
      obtain ⟨pipe, hpe, hrh, hrq⟩ := signal_pipe_create_ok env engine world hr
      rw [hpe]
      refine ⟨?_, rfl, rfl⟩
      unfold transport_inv
      simp only [nxt_fd_event_enable_read, hep, hb, Option.map_some']
      exact ⟨_, _, rfl, rfl, hrh, hrq, by simp, hpost⟩
    · simp only [hr, ne_eq, not_false_eq_true, if_true] at hok
      simp [NXT_OK, NXT_ERROR] at hok

/-- What a successful `nxt_event_engine_create` has done: it ran post-init
on an engine with the new vtable, a fresh backend state of the computed
capacities and no pipe, and then set the timers and `max_connections`. -/
theorem create_some_inv (w : Nat) (env : Env) (world : World)
    (interface : nxt_event_interface_t) (signals : Option (List nxt_sig_event_t))
    (flags batch : Nat) (created : nxt_event_engine_t) (world1 : World)
    (h : nxt_event_engine_create w env world interface signals flags batch
        = (some created, world1)) :
    ∃ e0 w0, e0.event = interface ∧
      e0.backend = some
        { changes := 4 * (if batch ≠ 0 then batch else 32) % 2 ^ w,
          events := if batch ≠ 0 then batch else 32, post_handler := none,
          read_enabled := [] } ∧
      e0.pipe = none ∧ e0.batch = batch ∧
      (nxt_event_engine_post_init env e0 w0).1 = NXT_OK ∧
      created = { (nxt_event_engine_post_init env e0 w0).2.1 with
        timers := some (4 * (if batch ≠ 0 then batch else 32) % 2 ^ w),
        max_connections := 0xffffffff } := by
  unfold nxt_event_engine_create at h
  by_cases h1 : env.zalloc_engine = false
  · rw [if_pos h1] at h
    simp at h
  rw [if_neg h1] at h
  dsimp only at h
  by_cases h2 : flags &&& NXT_ENGINE_FIBERS ≠ 0 ∧ env.fiber_main_create = false
  · rw [if_pos h2] at h
    simp at h
  rw [if_neg h2] at h
  by_cases h3 : signals.isSome ∧ env.event_engine_signals = false
  · rw [if_pos h3] at h
    simp at h
  rw [if_neg h3] at h
  by_cases h4 : decide (signals.isSome ∧ interface.signal_support = false) = true ∧
      env.signals_start ≠ NXT_OK
  · rw [if_pos h4] at h
    simp at h
  rw [if_neg h4] at h
  by_cases h5 : interface.create (4 * (if batch ≠ 0 then batch else 32) % 2 ^ w)
      (if batch ≠ 0 then batch else 32) ≠ NXT_OK
  · rw [if_pos h5] at h
    simp at h
  rw [if_neg h5] at h
  generalize hr : nxt_event_engine_post_init env _ _ = r at h
  by_cases h6 : r.1 ≠ NXT_OK
  · rw [if_pos h6] at h
    simp at h
  rw [if_neg h6] at h
  by_cases h7 : env.timers_init ≠ NXT_OK
  · rw [if_pos h7] at h
    simp at h
  rw [if_neg h7] at h
  simp only [Prod.mk.injEq, Option.some.injEq] at h
  subst hr
  refine ⟨_, _, ?_, ?_, ?_, ?_, not_not.1 h6, h.1.symm⟩ <;> rfl

/-- The second block of `nxt_event_engine_change` leaves no pipe when the new
backend has `enable_post`. -/
theorem change_defer_pipe_close_pipe (engine : nxt_event_engine_t)
    (interface : nxt_event_interface_t) (h : interface.enable_post ≠ none) :
    (change_defer_pipe_close engine interface).pipe = none := by
  unfold change_defer_pipe_close
  split
  · simp [h]
  · assumption

/-- What a successful `nxt_event_engine_change` has done: it ran post-init on
an engine with the new vtable and a fresh backend state, holding no pipe when
the new backend has `enable_post`; the changed engine has the vtable, pipe and
backend state that post-init left. -/
theorem change_ok_inv (w : Nat) (env : Env) (fuel : Nat) (engine : nxt_event_engine_t)
    (world : World) (interface : nxt_event_interface_t) (batch : Nat)
    (changed : nxt_event_engine_t) (world2 : World)
    (h : nxt_event_engine_change w env fuel engine world interface batch
        = .ok (NXT_OK, changed, world2)) :
    ∃ e1 w1, (e1.event.enable_post ≠ none → e1.pipe = none) ∧
      e1.backend = some
        { changes := 4 * (if batch ≠ 0 then batch else 32) % 2 ^ w,
          events := if batch ≠ 0 then batch else 32, post_handler := none,
          read_enabled := [] } ∧
      (nxt_event_engine_post_init env e1 w1).1 = NXT_OK ∧
      changed.event.enable_post =
        (nxt_event_engine_post_init env e1 w1).2.1.event.enable_post ∧
      changed.pipe = (nxt_event_engine_post_init env e1 w1).2.1.pipe ∧
      changed.backend = (nxt_event_engine_post_init env e1 w1).2.1.backend := by
  unfold nxt_event_engine_change at h
  dsimp only at h
  split at h
  · simp at h
  rename_i e0 w0 _
  by_cases h5 : interface.create (4 * (if batch ≠ 0 then batch else 32) % 2 ^ w)
      (if batch ≠ 0 then batch else 32) ≠ NXT_OK
  · rw [if_pos h5] at h
    simp [NXT_OK, NXT_ERROR] at h
  rw [if_neg h5] at h
  generalize hr : nxt_event_engine_post_init env _ _ = r at h
  by_cases h6 : r.1 ≠ NXT_OK
  · rw [if_pos h6] at h
    simp [NXT_OK, NXT_ERROR] at h
  rw [if_neg h6] at h
  have hch : changed.event.enable_post = r.2.1.event.enable_post ∧
      changed.pipe = r.2.1.pipe ∧ changed.backend = r.2.1.backend := by
    split at h
    · by_cases h8 : r.2.1.event.signal_support = false
      · rw [if_pos h8] at h
        simp only [Except.ok.injEq, Prod.mk.injEq] at h
        obtain ⟨_, rfl, _⟩ := h
        exact ⟨rfl, rfl, rfl⟩
      · rw [if_neg h8] at h
        simp only [Except.ok.injEq, Prod.mk.injEq] at h
        obtain ⟨_, rfl, _⟩ := h
        exact ⟨rfl, rfl, rfl⟩
    · simp only [Except.ok.injEq, Prod.mk.injEq] at h
      obtain ⟨_, rfl, _⟩ := h
      exact ⟨rfl, rfl, rfl⟩
  subst hr
  refine ⟨_, _, ?_, rfl, not_not.1 h6, hch⟩
  intro hne
  exact change_defer_pipe_close_pipe e0 interface hne

/-- C6: after every successful `nxt_event_engine_create`, and after every
successful `nxt_event_engine_change` from an engine that satisfies the
wake-up transport invariant, the engine satisfies the invariant: with an
`enable_post` hook in the current vtable the mailbox-drain handler is
registered through it and `engine.pipe` is null; without the hook the engine
holds a self-pipe whose reader is registered for read-readiness on `fast`;
never both and never neither. -/
theorem C6_wakeup_transport_invariant (w : Nat) (env : Env) (world : World)
    (interface : nxt_event_interface_t) (signals : Option (List nxt_sig_event_t))
    (flags batch fuel : Nat) (engine created changed : nxt_event_engine_t)
    (world1 world2 : World) :
    (nxt_event_engine_create w env world interface signals flags batch
        = (some created, world1) → transport_inv created) ∧
    (transport_inv engine →
      nxt_event_engine_change w env fuel engine world interface batch
        = .ok (NXT_OK, changed, world2) → transport_inv changed) := by
  constructor
  · intro h
    obtain ⟨e0, w0, hev, hb, hpipe, _, hok, rfl⟩ :=
      create_some_inv w env world interface signals flags batch created world1 h
    obtain ⟨hinv, _, _⟩ :=
      post_init_transport env e0 w0 _ hb rfl rfl (fun _ => hpipe) hok
    exact transport_inv_congr _ _ rfl rfl rfl hinv
  · intro _ h
    obtain ⟨e1, w1, hpipe, hb, hok, hch⟩ :=
      change_ok_inv w env fuel engine world interface batch changed world2 h
    obtain ⟨hinv, _, _⟩ := post_init_transport env e1 w1 _ hb rfl rfl hpipe hok
    exact transport_inv_congr _ _ hch.1 hch.2.1 hch.2.2 hinv

/-! ## Create: what is released on failure, and the sizing -/

/-- The pipe creation either succeeds, with one more pipe record and one more
open descriptor pair, or reports `NXT_ERROR` with the resources as before. -/
theorem signal_pipe_create_world (env : Env) (engine : nxt_event_engine_t)
    (world : World) :
    (nxt_event_engine_signal_pipe_create env engine world).2.1.signals = engine.signals ∧
    (nxt_event_engine_signal_pipe_create env engine world).2.1.fibers = engine.fibers ∧
    (nxt_event_engine_signal_pipe_create env engine world).2.1.batch = engine.batch ∧
    (nxt_event_engine_signal_pipe_create env engine world).2.2.engines = world.engines ∧
    (nxt_event_engine_signal_pipe_create env engine world).2.2.fibers = world.fibers ∧
    (nxt_event_engine_signal_pipe_create env engine world).2.2.signal_sets
      = world.signal_sets ∧
    (nxt_event_engine_signal_pipe_create env engine world).2.2.caches = world.caches ∧
    (nxt_event_engine_signal_pipe_create env engine world).2.2.backends = world.backends ∧
    (nxt_event_engine_signal_pipe_create env engine world).2.2.timers = world.timers ∧
    (((nxt_event_engine_signal_pipe_create env engine world).1 = NXT_OK ∧
        (nxt_event_engine_signal_pipe_create env engine world).2.2.pipes = world.pipes + 1 ∧
        (nxt_event_engine_signal_pipe_create env engine world).2.2.pipe_fds
          = world.pipe_fds + 1) ∨
      ((nxt_event_engine_signal_pipe_create env engine world).1 = NXT_ERROR ∧
        (nxt_event_engine_signal_pipe_create env engine world).2.2.pipes = world.pipes ∧
        (nxt_event_engine_signal_pipe_create env engine world).2.2.pipe_fds
          = world.pipe_fds)) := by
  unfold nxt_event_engine_signal_pipe_create
  by_cases h1 : env.zalloc_pipe = false
  · rw [if_pos h1]
    simp
  rw [if_neg h1]
  dsimp only
  by_cases h2 : env.pipe_create ≠ NXT_OK
  · rw [if_pos h2]
    simp
  rw [if_neg h2]
  simp [nxt_fd_event_enable_read]

/-- Post-init touches only the pipe resources: a successful run on a vtable
without `enable_post` leaves one more pipe record and one more open descriptor
pair, every other run leaves the resources as they were.  The signal set and
the fiber flag of the engine are untouched. -/
theorem post_init_world (env : Env) (engine : nxt_event_engine_t) (world : World)
    (r : Int × nxt_event_engine_t × World)
    (hr : nxt_event_engine_post_init env engine world = r) :
    r.2.1.signals = engine.signals ∧
    r.2.1.fibers = engine.fibers ∧
    r.2.1.batch = engine.batch ∧
    r.2.2.engines = world.engines ∧
    r.2.2.fibers = world.fibers ∧
    r.2.2.signal_sets = world.signal_sets ∧
    r.2.2.caches = world.caches ∧
    r.2.2.backends = world.backends ∧
    r.2.2.timers = world.timers ∧
    ((r.1 = NXT_OK ∧ engine.event.enable_post = none ∧
        r.2.2.pipes = world.pipes + 1 ∧ r.2.2.pipe_fds = world.pipe_fds + 1) ∨
      ((r.1 ≠ NXT_OK ∨ engine.event.enable_post ≠ none) ∧
        r.2.2.pipes = world.pipes ∧ r.2.2.pipe_fds = world.pipe_fds)) := by
  subst hr
  unfold nxt_event_engine_post_init
  cases hep : engine.event.enable_post with
  | some rc =>
    dsimp only
    split_ifs <;> simp
  | none =>
    dsimp only
    obtain ⟨a1, a2, a3, a4, a5, a6, a7, a8, a9, a10⟩ :=
      signal_pipe_create_world env engine world
    rcases a10 with hok | herr
    · rw [if_neg (not_not.2 hok.1)]
      exact ⟨a1, a2, a3, a4, a5, a6, a7, a8, a9, Or.inl ⟨rfl, rfl, hok.2⟩⟩
    · have hne : (nxt_event_engine_signal_pipe_create env engine world).1 ≠ NXT_OK := by
        rw [herr.1]
        simp [NXT_OK, NXT_ERROR]
      rw [if_pos hne]
      refine ⟨a1, a2, a3, a4, a5, a6, a7, a8, a9, Or.inr ⟨Or.inl ?_, herr.2⟩⟩
      simp [NXT_OK, NXT_ERROR]

/-- Every failing `nxt_event_engine_create` returns NULL with the engine, the
fiber context, the signal set, the work-queue cache and the backend state
released and no timers allocated.  The self-pipe is released as well, except
on one path: the backend has no `enable_post`, post-init has created the pipe
and `nxt_timers_init` fails; there the pipe record and its descriptor pair
stay allocated. -/
theorem create_failure_unwinds (w : Nat) (env : Env) (world : World)
    (interface : nxt_event_interface_t) (signals : Option (List nxt_sig_event_t))
    (flags batch : Nat)
    (h : (nxt_event_engine_create w env world interface signals flags batch).1 = none) :
    (nxt_event_engine_create w env world interface signals flags batch).2.engines
        = world.engines ∧
    (nxt_event_engine_create w env world interface signals flags batch).2.fibers
        = world.fibers ∧
    (nxt_event_engine_create w env world interface signals flags batch).2.signal_sets
        = world.signal_sets ∧
    (nxt_event_engine_create w env world interface signals flags batch).2.caches
        = world.caches ∧
    (nxt_event_engine_create w env world interface signals flags batch).2.backends
        = world.backends ∧
    (nxt_event_engine_create w env world interface signals flags batch).2.timers
        = world.timers ∧
    (((nxt_event_engine_create w env world interface signals flags batch).2.pipes
          = world.pipes ∧
        (nxt_event_engine_create w env world interface signals flags batch).2.pipe_fds
          = world.pipe_fds) ∨
      (interface.enable_post = none ∧ env.timers_init ≠ NXT_OK ∧
        (nxt_event_engine_create w env world interface signals flags batch).2.pipes
          = world.pipes + 1 ∧
        (nxt_event_engine_create w env world interface signals flags batch).2.pipe_fds
          = world.pipe_fds + 1)) := by
  unfold nxt_event_engine_create at h ⊢
  by_cases h1 : env.zalloc_engine = false
  · rw [if_pos h1]
    simp
  rw [if_neg h1] at h ⊢
  dsimp only at h ⊢
  by_cases h2 : flags &&& NXT_ENGINE_FIBERS ≠ 0 ∧ env.fiber_main_create = false
  · rw [if_pos h2]
    clear h
    simp [create_unwind]
  rw [if_neg h2] at h ⊢
  by_cases h3 : signals.isSome ∧ env.event_engine_signals = false
  · rw [if_pos h3]
    clear h
    simp only [create_unwind]
    split_ifs <;> simp_all [engine_zero]
  rw [if_neg h3] at h ⊢
  by_cases h4 : decide (signals.isSome ∧ interface.signal_support = false) = true ∧
      env.signals_start ≠ NXT_OK
  · rw [if_pos h4]
    clear h
    simp only [create_unwind]
    cases signals <;> split_ifs <;> simp_all [engine_zero]
  rw [if_neg h4] at h ⊢
  by_cases h5 : interface.create (4 * (if batch ≠ 0 then batch else 32) % 2 ^ w)
      (if batch ≠ 0 then batch else 32) ≠ NXT_OK
  · rw [if_pos h5]
    clear h
    simp only [create_unwind]
    cases signals <;> split_ifs <;> simp_all [engine_zero]
  rw [if_neg h5] at h ⊢
  generalize hr : nxt_event_engine_post_init env _ _ = r at h ⊢
  have hw := post_init_world env _ _ r hr
  obtain ⟨hs, hf, _, he, hfb, hss, hc, hb, ht, hp⟩ := hw
  dsimp only at hs hf he hfb hss hc hb ht hp
  by_cases h6 : r.1 ≠ NXT_OK
  · rw [if_pos h6]
    clear h
    simp only [create_unwind, hs, hf, he, hfb, hss, hc, hb, ht]
    rcases hp with hp | hp
    · exact absurd hp.1 h6
    · rw [hp.2.1, hp.2.2]
      cases signals <;> split_ifs <;> simp_all [engine_zero]
  rw [if_neg h6] at h ⊢
  by_cases h7 : env.timers_init ≠ NXT_OK
  · rw [if_pos h7]
    clear h
    simp only [create_unwind, hs, hf, he, hfb, hss, hc, hb, ht]
    rcases hp with hp | hp
    · rw [hp.2.2.1, hp.2.2.2]
      have hpost : interface.enable_post = none := hp.2.1
      cases signals <;> split_ifs <;> simp_all [engine_zero]
    · rw [hp.2.1, hp.2.2]
      cases signals <;> split_ifs <;> simp_all [engine_zero]
  rw [if_neg h7] at h
  simp at h

/-- Post-init keeps the capacities of the backend state. -/
theorem post_init_backend (env : Env) (engine : nxt_event_engine_t) (world : World)
    (b : Backend) (hb : engine.backend = some b) :
    ∃ b2, (nxt_event_engine_post_init env engine world).2.1.backend = some b2 ∧
      b2.changes = b.changes ∧ b2.events = b.events := by
  unfold nxt_event_engine_post_init
  cases hep : engine.event.enable_post with
  | some rc =>
    dsimp only
    split_ifs
    · simp only [hb, Option.map_some']
      exact ⟨_, rfl, rfl, rfl⟩
    · exact ⟨b, hb, rfl, rfl⟩
  | none =>
    dsimp only
    unfold nxt_event_engine_signal_pipe_create
    by_cases h1 : env.zalloc_pipe = false
    · rw [if_pos h1]
      split_ifs <;> exact ⟨b, hb, rfl, rfl⟩
    rw [if_neg h1]
    dsimp only
    by_cases h2 : env.pipe_create ≠ NXT_OK
    · rw [if_pos h2]
      split_ifs <;> exact ⟨b, hb, rfl, rfl⟩
    rw [if_neg h2]
    split_ifs
    all_goals
      simp only [nxt_fd_event_enable_read, hb, Option.map_some']
      exact ⟨_, rfl, rfl, rfl⟩

/-- The sizing of a successful create: `batch` is recorded, the backend state
holds `events_cap = batch` (32 for `batch = 0`) and `changes_cap` the product
`4 * events_cap` reduced to the width `w` of `nxt_uint_t`, and the timers are
sized with the same value.  While the product fits the word it is four times
the event capacity, hence at least twice. -/
theorem create_sizing (w : Nat) (env : Env) (world : World)
    (interface : nxt_event_interface_t) (signals : Option (List nxt_sig_event_t))
    (flags batch : Nat) (created : nxt_event_engine_t) (world1 : World)
    (h : nxt_event_engine_create w env world interface signals flags batch
        = (some created, world1)) :
    created.batch = batch ∧
    ∃ b, created.backend = some b ∧
      b.events = (if batch ≠ 0 then batch else 32) ∧
      b.changes = 4 * (if batch ≠ 0 then batch else 32) % 2 ^ w ∧
      created.timers = some (4 * (if batch ≠ 0 then batch else 32) % 2 ^ w) ∧
      (4 * (if batch ≠ 0 then batch else 32) < 2 ^ w →
        b.changes = 4 * b.events ∧ 2 * b.events ≤ b.changes) := by
  obtain ⟨e0, w0, _, hb, _, hbatch, _, rfl⟩ :=
    create_some_inv w env world interface signals flags batch created world1 h
  obtain ⟨b2, hb2, hc, he⟩ := post_init_backend env e0 w0 _ hb
  have hw := post_init_world env e0 w0 _ rfl
  refine ⟨by rw [← hbatch]; exact hw.2.2.1, b2, hb2, he, hc, rfl, ?_⟩
  intro hfit
  rw [hc, he]
  dsimp only
  rw [Nat.mod_eq_of_lt hfit]
  exact ⟨rfl, by omega⟩

/-- The sizing of a successful change: the new backend state holds
`events_cap = batch` (32 for `batch = 0`) and `changes_cap` the product
`4 * events_cap` reduced to the width `w` of `nxt_uint_t`. -/
theorem change_sizing (w : Nat) (env : Env) (fuel : Nat) (engine : nxt_event_engine_t)
    (world : World) (interface : nxt_event_interface_t) (batch : Nat)
    (changed : nxt_event_engine_t) (world2 : World)
    (h : nxt_event_engine_change w env fuel engine world interface batch
        = .ok (NXT_OK, changed, world2)) :
    ∃ b, changed.backend = some b ∧
      b.events = (if batch ≠ 0 then batch else 32) ∧
      b.changes = 4 * (if batch ≠ 0 then batch else 32) % 2 ^ w := by
  obtain ⟨e1, w1, _, hb, _, _, _, hback⟩ :=
    change_ok_inv w env fuel engine world interface batch changed world2 h
  obtain ⟨b2, hb2, hc, he⟩ := post_init_backend env e1 w1 _ hb
  exact ⟨b2, by rw [hback, hb2], he, hc⟩

/-! ## Change and the pending work -/

theorem range_map_getD (l : List Nat) :
    (List.range l.length).map (fun i => l.getD i 0) = l := by
  induction l with
  | nil => rfl
  | cons a t ih =>
    rw [List.length_cons, List.range_succ_eq_map, List.map_cons, List.map_map]
    simp only [List.getD_cons_zero]
    congr 1

/-- A read on a non-empty pipe hands over the oldest bytes, at most `size`. -/
theorem bytes_of_read_pipe (size : Nat) (a : Nat) (t : List Nat) :
    bytes_of (nxt_fd_read_pipe size (a :: t)).1 = (a :: t).take size := by
  simp only [nxt_fd_read_pipe, bytes_of, Int.toNat_ofNat]
  exact range_map_getD _

/-- The reader loop on a pipe reads every pending byte, oldest first, and
leaves the pipe empty. -/
theorem signal_pipe_loop_pipe {σ : Type} (signal_handler : Nat → σ → σ) :
    ∀ (fuel : Nat) (pending : List Nat) (post : Bool) (s : σ),
      pending.length / 128 < fuel →
      signal_pipe_loop (nxt_fd_read_pipe 128) signal_handler fuel pending post s =
        some ([], pending.foldl (scan_step signal_handler) (post, s)) := by
  intro fuel
  induction fuel with
  | zero => intro pending post s h; omega
  | succ f ih =>
    intro pending post s hlen
    cases pending with
    | nil =>
      simp [signal_pipe_loop, nxt_fd_read_pipe, signal_pipe_scan]
    | cons a t =>
      unfold signal_pipe_loop
      simp only [signal_pipe_scan_eq, bytes_of_read_pipe]
      have hn : (nxt_fd_read_pipe 128 (a :: t)).1.n = (((a :: t).take 128).length : Nat) := rfl
      have hd : (nxt_fd_read_pipe 128 (a :: t)).2 = (a :: t).drop 128 := rfl
      rw [hn, hd]
      by_cases hfull : (((a :: t).take 128).length : Int) = 128
      · rw [if_pos hfull]
        have hl : 128 ≤ (a :: t).length := by
          have : ((a :: t).take 128).length = 128 := by exact_mod_cast hfull
          rw [List.length_take] at this
          omega
        have hrec := ih ((a :: t).drop 128)
          (List.foldl (scan_step signal_handler) (post, s) ((a :: t).take 128)).1
          (List.foldl (scan_step signal_handler) (post, s) ((a :: t).take 128)).2
          (by rw [List.length_drop]; omega)
        rw [hrec, ← List.foldl_append, List.take_append_drop]
      · rw [if_neg hfull]
        have hl : (a :: t).length < 128 := by
          have : ((a :: t).take 128).length ≠ 128 := by
            intro h
            exact hfull (by exact_mod_cast h)
          rw [List.length_take] at this
          omega
        rw [List.take_of_length_le (by omega), List.drop_of_length_le (by omega)]

theorem dispatch_signal_ok (engine : nxt_event_engine_t) (world : World)
    (signals : nxt_event_signals_t) (before rest : List nxt_sig_event_t)
    (terminator : nxt_sig_event_t) (hsig : engine.signals = some signals)
    (htable : signals.sigev = before ++ terminator :: rest)
    (hbefore : ∀ sigev ∈ before, sigev.signo ≠ 0) (hterm : terminator.signo = 0)
    (signo : Nat) :
    dispatch_signal signo (.ok (engine, world)) =
      .ok (engine, { world with
        calls := world.calls ++ [table_action engine.task before signo] }) := by
  unfold dispatch_signal nxt_event_engine_signal_handler table_action
  simp only [hsig, htable, signal_handler_search_eq signo terminator hterm rest before hbefore]
  cases before.find? (fun sigev => decide (signo = sigev.signo)) <;> rfl

theorem foldl_dispatch_signal (engine : nxt_event_engine_t)
    (signals : nxt_event_signals_t) (before rest : List nxt_sig_event_t)
    (terminator : nxt_sig_event_t) (hsig : engine.signals = some signals)
    (htable : signals.sigev = before ++ terminator :: rest)
    (hbefore : ∀ sigev ∈ before, sigev.signo ≠ 0) (hterm : terminator.signo = 0) :
    ∀ (bytes : List Nat) (world : World),
      bytes.foldl (fun s b => dispatch_signal b s) (.ok (engine, world)) =
        .ok (engine, { world with
          calls := world.calls ++ bytes.map (table_action engine.task before) }) := by
  intro bytes
  induction bytes with
  | nil => intro world; simp
  | cons b bytes ih =>
    intro world
    rw [List.foldl_cons,
      dispatch_signal_ok engine world signals before rest terminator hsig htable hbefore hterm,
      ih]
    simp

theorem filter_ne_zero (bytes : List Nat) (h : ∀ b ∈ bytes, b ≠ 0) :
    bytes.filter (fun b => decide (b ≠ 0)) = bytes := by
  rw [List.filter_eq_self]
  intro b hb
  simpa using h b hb

theorem post_init_enable_post (env : Env) (engine : nxt_event_engine_t) (world : World)
    (rc : Int) (h : engine.event.enable_post = some rc) :
    nxt_event_engine_post_init env engine world =
      (rc,
        if rc = NXT_OK then
          { engine with
            backend := engine.backend.map
              (fun b => { b with post_handler := some .nxt_event_engine_post_handler }) }
        else engine,
        world) := by
  unfold nxt_event_engine_post_init
  rw [h]
  dsimp only
  split_ifs <;> rfl

/-- The first block of `change`, when it runs on a pipe that holds only
signal bytes: every byte is dispatched, in order, and the pipe is empty
afterwards. -/
theorem change_flush_signals_ok (fuel : Nat) (engine : nxt_event_engine_t) (world : World)
    (interface : nxt_event_interface_t) (pipe : nxt_event_engine_pipe_t)
    (signals : nxt_event_signals_t) (before rest : List nxt_sig_event_t)
    (terminator : nxt_sig_event_t)
    (hpipe : engine.pipe = some pipe)
    (hold : engine.event.signal_support = false) (hnew : interface.signal_support = true)
    (hsig : engine.signals = some signals)
    (htable : signals.sigev = before ++ terminator :: rest)
    (hbefore : ∀ sigev ∈ before, sigev.signo ≠ 0) (hterm : terminator.signo = 0)
    (hbytes : ∀ b ∈ pipe.pending, b ≠ 0) (hfuel : pipe.pending.length / 128 < fuel) :
    change_flush_signals fuel engine world interface =
      .ok ({ engine with pipe := some { pipe with pending := [] } },
        { world with
          signal_processing := false
          calls := world.calls ++ pipe.pending.map (table_action engine.task before) }) := by
  unfold change_flush_signals
  rw [if_pos ⟨hold, hnew⟩]
  simp only [hpipe]
  unfold nxt_event_engine_signal_pipe
  rw [signal_pipe_loop_pipe dispatch_signal fuel pipe.pending false _ hfuel, foldl_scan_step,
    filter_ne_zero _ hbytes,
    foldl_dispatch_signal engine signals before rest terminator hsig htable hbefore hterm]
  have hz : decide (0 ∈ pipe.pending) = false := by
    simp only [decide_eq_false_iff_not]
    intro h0
    exact hbytes 0 h0 rfl
  simp only [hz, Bool.or_false, Bool.false_eq_true, if_false]

/-- C5 (amended): for every engine that holds a self-pipe and whose current
backend has no signal support, with any entries queued on `fast`, any signal
(non-zero) bytes pending in the pipe and a terminated signal table, and for
every new backend that provides `enable_post` and has signal support,
`nxt_event_engine_change` returns without fault; it has then dispatched every
pending byte to the handler the table gives for it, in pipe order, the pipe
it hands to the deferred close is empty, the entries of `fast` are still
queued in their order with the pipe-close entry behind them, and the engine
holds no pipe.  The result is `NXT_OK` when the new backend's `create` and
`enable_post` succeed. -/
theorem C5_change_preserves_pending_work (w : Nat) (env : Env) (fuel : Nat)
    (engine : nxt_event_engine_t) (world : World) (interface : nxt_event_interface_t)
    (batch : Nat) (pipe : nxt_event_engine_pipe_t) (signals : nxt_event_signals_t)
    (before rest : List nxt_sig_event_t) (terminator : nxt_sig_event_t) (rc : Int)
    (hpipe : engine.pipe = some pipe)
    (hold : engine.event.signal_support = false) (hnew : interface.signal_support = true)
    (hpost : interface.enable_post = some rc)
    (hsig : engine.signals = some signals)
    (htable : signals.sigev = before ++ terminator :: rest)
    (hbefore : ∀ sigev ∈ before, sigev.signo ≠ 0) (hterm : terminator.signo = 0)
    (hbytes : ∀ b ∈ pipe.pending, b ≠ 0) (hfuel : pipe.pending.length / 128 < fuel) :
    ∃ ret changed world2,
      nxt_event_engine_change w env fuel engine world interface batch
        = .ok (ret, changed, world2) ∧
      world2.calls = world.calls ++ pipe.pending.map (table_action engine.task before) ∧
      changed.work_queue fast_work_queue =
        engine.work_queue fast_work_queue ++
          [{ handler := .nxt_event_engine_signal_pipe_close, task := engine.task,
             obj := .pipe { pipe with pending := [] }, data := .null }] ∧
      changed.pipe = none ∧
      (interface.create (4 * (if batch ≠ 0 then batch else 32) % 2 ^ w)
          (if batch ≠ 0 then batch else 32) = NXT_OK → rc = NXT_OK → ret = NXT_OK) := by
  have hflush := change_flush_signals_ok fuel { engine with batch := batch } world interface
    pipe signals before rest terminator hpipe hold hnew hsig htable hbefore hterm hbytes hfuel
  have hne : interface.enable_post ≠ none := by rw [hpost]; simp
  unfold nxt_event_engine_change
  dsimp only
  rw [hflush]
  dsimp only
  have hdefer : change_defer_pipe_close
      { engine with batch := batch, pipe := some { pipe with pending := [] } } interface =
      { engine with
        batch := batch
        pipe := none
        work_queue := set_queue engine.work_queue fast_work_queue
          (engine.work_queue fast_work_queue ++
            [{ handler := .nxt_event_engine_signal_pipe_close, task := engine.task,
               obj := .pipe { pipe with pending := [] }, data := .null }]) } := by
    unfold change_defer_pipe_close
    dsimp only
    rw [if_pos hne]
    rfl
  rw [hdefer]
  dsimp only
  by_cases h5 : interface.create (4 * (if batch ≠ 0 then batch else 32) % 2 ^ w)
      (if batch ≠ 0 then batch else 32) ≠ NXT_OK
  · rw [if_pos h5]
    exact ⟨_, _, _, rfl, rfl, by simp [set_queue], rfl, fun h => absurd h h5⟩
  rw [if_neg h5]
  rw [post_init_enable_post env _ _ rc hpost]
  dsimp only
  by_cases h6 : rc ≠ NXT_OK
  · rw [if_pos h6]
    refine ⟨_, _, _, rfl, rfl, ?_, ?_, fun _ h => absurd h h6⟩
    · rw [if_neg h6]; simp [set_queue]
    · rw [if_neg h6]
  rw [if_neg h6]
  have h6b : rc = NXT_OK := not_not.1 h6
  rw [if_pos h6b]
  dsimp only
  rw [hsig]
  dsimp only
  rw [if_neg (by rw [hnew]; simp)]
  exact ⟨_, _, _, rfl, rfl, by simp [set_queue], rfl, fun _ _ => rfl⟩

/-! ## The claims at sample inputs -/

/-- C1 at the second end-to-end scenario: with the cursor on `write` the pop
is the one the selection rule prescribes, and it returns the entry W1. -/
theorem C1_queue_pop_selection_rule_witness :
    nxt_event_engine_queue_pop 8 engine_round_robin
        = some (spec_queue_pop engine_round_robin) ∧
      (spec_queue_pop engine_round_robin).2 = some (user_work 2) :=
  ⟨(C1_queue_pop_selection_rule engine_round_robin 8 (by decide) (by decide)).1, rfl⟩

/-- The second end-to-end scenario in full: from the cursor on `write` the
drain runs W1, then A1, then R1. -/
theorem drain_round_robin_example :
    (nxt_event_engine_start_drain (fun _ e => e) 8 4 engine_round_robin []).map (fun r => r.2)
      = some [user_work 2, user_work 3, user_work 1] := by
  rfl

/-- C2 at the first end-to-end scenario: accept:A, close:C, fast:F, read:R
run in the order F, A, R, C. -/
theorem C2_drain_priority_order_witness :
    ∃ e2, nxt_event_engine_start_drain (fun _ e => e) 8 5 engine_scenario [] =
        some (e2, [user_work 3, user_work 1, user_work 4, user_work 2]) ∧
      (∀ i, i ≤ close_work_queue → e2.work_queue i = []) ∧
      e2.current_work_queue = fast_work_queue :=
  C2_drain_priority_order (fun _ e => e) engine_scenario 8 5 rfl (fun _ _ => ⟨rfl, rfl⟩)
    (by decide) (by decide)

/-- C3 at `sample_reads`: two reads are made; the 127 bytes 10 and the byte
12 reach the dispatcher in this order and the mailbox drain runs once, after
them. -/
theorem C3_signal_pipe_reader_witness :
    nxt_event_engine_signal_pipe (read_nth sample_reads)
        (fun b (s : List Nat) => s ++ [b]) (fun s => s ++ [0]) 2 0 []
      = some (2, List.replicate 127 10 ++ [12] ++ [0]) := by
  have h := C3_signal_pipe_reader sample_reads (fun b (s : List Nat) => s ++ [b])
    (fun s => s ++ [0]) [] 1 2 (by intro j hj; interval_cases j; rfl) (by decide) (by decide)
  rw [h]
  rfl

/-- C4 at the sample table: signal 10 goes to the handler of its row, with
the name of the row. -/
theorem C4_signal_dispatch_witness :
    nxt_event_engine_signal_handler 1
        (some { sigev := sample_signals, handler := none, process := 0 }) 10
      = .ok (.invoke (.user 10) 1 10 "SIGUSR1") :=
  C4_signal_dispatch 1 10 [{ signo := 10, handler := .user 10, name := "SIGUSR1" }] []
    { signo := 0, handler := .user 0, name := "" } none 0 (by decide) rfl

/-- C5, the claim as stated, fails: `engine_pending` uses a self-pipe, has two
entries queued on `fast` and two bytes of signal 10 pending in the pipe, its
table has a handler for signal 10, and the new backend `backend_post` provides
`enable_post`.  The change succeeds, yet no signal was dispatched: the log is
empty, the two bytes are still in the pipe that the deferred close entry will
close, and the drain that precedes the first poll runs the two entries and the
pipe close and nothing else. -/
theorem C5_change_loses_pending_signals :
    engine_pending.pipe = some { pipe_plain with pending := [10, 10] } ∧
    engine_pending.work_queue fast_work_queue = [user_work 1, user_work 2] ∧
    nxt_event_engine_signal_handler 1 engine_pending.signals 10
      = .ok (.invoke (.user 10) 1 10 "SIGUSR1") ∧
    backend_post.enable_post = some NXT_OK ∧
    ∃ changed world2,
      nxt_event_engine_change 32 env_ok 1 engine_pending world_plain backend_post 0
        = .ok (NXT_OK, changed, world2) ∧
      world2.calls = [] ∧
      changed.pipe = none ∧
      changed.work_queue fast_work_queue =
        [user_work 1, user_work 2,
         { handler := .nxt_event_engine_signal_pipe_close, task := 1,
           obj := .pipe { pipe_plain with pending := [10, 10] }, data := .null }] ∧
      (nxt_event_engine_start_drain (fun _ e => e) 8 4 changed []).map (fun r => r.2) =
        some [user_work 1, user_work 2,
         { handler := .nxt_event_engine_signal_pipe_close, task := 1,
           obj := .pipe { pipe_plain with pending := [10, 10] }, data := .null }] :=
  ⟨rfl, rfl, rfl, rfl, _, _, rfl, rfl, rfl, rfl, rfl⟩

/-- C5 (amended) at `engine_pending` and the new backend
`backend_post_signals`: the two pending bytes are dispatched to the handler of
signal 10, the two entries stay on `fast` ahead of the pipe-close entry, and
the pipe handed to the close is empty. -/
theorem C5_change_preserves_pending_work_witness :
    ∃ ret changed world2,
      nxt_event_engine_change 32 env_ok 1 engine_pending world_plain backend_post_signals 0
        = .ok (ret, changed, world2) ∧
      world2.calls = [.invoke (.user 10) 1 10 "SIGUSR1", .invoke (.user 10) 1 10 "SIGUSR1"] ∧
      changed.work_queue fast_work_queue =
        [user_work 1, user_work 2,
         { handler := .nxt_event_engine_signal_pipe_close, task := 1,
           obj := .pipe pipe_plain, data := .null }] ∧
      changed.pipe = none ∧ ret = NXT_OK := by
  obtain ⟨ret, changed, world2, h1, h2, h3, h4, h5⟩ :=
    C5_change_preserves_pending_work 32 env_ok 1 engine_pending world_plain
      backend_post_signals 0 { pipe_plain with pending := [10, 10] }
      { sigev := sample_signals, handler := some .nxt_event_engine_signal_handler,
        process := 0 }
      [{ signo := 10, handler := .user 10, name := "SIGUSR1" }] []
      { signo := 0, handler := .user 0, name := "" } NXT_OK
      rfl rfl rfl rfl rfl rfl (by decide) rfl (by decide) (by decide)
  exact ⟨ret, changed, world2, h1, h2, h3, h4, h5 rfl rfl⟩

/-- C6 at sample inputs: the engine created on `backend_plain` holds a
registered self-pipe, and after the change to `backend_post` it holds none and
the post handler is registered. -/
theorem C6_wakeup_transport_invariant_witness :
    transport_inv engine_plain ∧ transport_inv engine_changed ∧
      engine_plain.pipe = some pipe_plain ∧ engine_changed.pipe = none := by
  have h := C6_wakeup_transport_invariant 32 env_ok world_zero backend_plain
    (some sample_signals) 0 0 1 engine_plain engine_plain engine_plain world_plain world_plain
  have h2 := C6_wakeup_transport_invariant 32 env_ok world_plain backend_post
    (some sample_signals) 0 0 1 engine_plain engine_plain engine_changed world_plain
    { world_plain with backends := 1 }
  exact ⟨h.1 rfl, h2.2 (h.1 rfl) rfl, rfl, rfl⟩

/-- C8, the divergence: with a backend that has no `enable_post`, so that
post-init creates the self-pipe, and a failing `nxt_timers_init`, create
returns NULL and has released the engine, the fiber context, the signal set,
the work-queue cache and the backend state, but the pipe record is still
allocated and its descriptor pair still open.  `nxt_event_engine_free`, in
contrast, releases the pipe of the same engine. -/
theorem C8_create_timers_failure_leaks_pipe :
    nxt_event_engine_create 32 { env_ok with timers_init := NXT_ERROR } world_zero
        backend_plain (some sample_signals) NXT_ENGINE_FIBERS 0
      = (none, { world_zero with pipes := 1, pipe_fds := 1, signal_processing := true }) ∧
    nxt_event_engine_free engine_plain world_plain
      = { world_zero with timers := 1, signal_processing := true } :=
  ⟨rfl, rfl⟩

/-- C9, the divergence: for a 32-bit `nxt_uint_t` and `batch = 2^30`, and for
a 64-bit one and `batch = 2^62`, the product `4 * events` wraps to 0: the
backend's `create` hook is called with `changes_cap = 0` and
`events_cap = batch`, and the timers are sized with 0. -/
theorem C9_create_sizing_wraps :
    (((nxt_event_engine_create 32 env_ok world_zero backend_plain none 0 (2 ^ 30)).1).map
        (fun e => (e.batch, e.backend.map (fun b => (b.changes, b.events)), e.timers))
      = some (2 ^ 30, some (0, 2 ^ 30), some 0)) ∧
    (((nxt_event_engine_create 64 env_ok world_zero backend_plain none 0 (2 ^ 62)).1).map
        (fun e => (e.batch, e.backend.map (fun b => (b.changes, b.events)), e.timers))
      = some (2 ^ 62, some (0, 2 ^ 62), some 0)) := by
  constructor <;> decide

/-- C10, the divergence: `engine_post`, created on a backend with
`enable_post` and without signal support, satisfies the wake-up transport
invariant and holds no self-pipe; changing it to a backend with signal support
runs the self-pipe reader on the null `engine->pipe`. -/
theorem C10_change_reads_null_pipe :
    nxt_event_engine_create 32 env_ok world_zero backend_post (some sample_signals) 0 0
      = (some engine_post, world_one) ∧
    transport_inv engine_post ∧
    engine_post.pipe = none ∧
    engine_post.event.signal_support = false ∧
    backend_post_signals.signal_support = true ∧
    nxt_event_engine_change 32 env_ok 1 engine_post world_one backend_post_signals 0
      = .error .null_deref := by
  refine ⟨rfl, ?_, rfl, rfl, rfl, rfl⟩
  obtain ⟨e0, w0, _, hb, hpipe, _, hok, hc⟩ := create_some_inv 32 env_ok world_zero
    backend_post (some sample_signals) 0 0 engine_post world_one rfl
  obtain ⟨hinv, _, _⟩ := post_init_transport env_ok e0 w0 _ hb rfl rfl (fun _ => hpipe) hok
  rw [hc]
  exact transport_inv_congr _ _ rfl rfl rfl hinv

/-! ## Request index -/

theorem u32_lt (x : Nat) : u32 x < 2 ^ 32 :=
  Nat.mod_lt _ (by norm_num)

/-- Multiplication by the odd Murmur2 multiplier is injective on 32-bit
words. -/
theorem u32_mul_m_inj (a b : Nat) (ha : a < 2 ^ 32) (hb : b < 2 ^ 32)
    (h : u32 (a * murmur_m) = u32 (b * murmur_m)) : a = b := by
  have hcop : Nat.gcd (2 ^ 32) murmur_m = 1 := by
    unfold murmur_m
    norm_num
  have hmod : a * murmur_m ≡ b * murmur_m [MOD 2 ^ 32] := h
  have := Nat.ModEq.cancel_right_of_coprime hcop hmod
  unfold Nat.ModEq at this
  rwa [Nat.mod_eq_of_lt ha, Nat.mod_eq_of_lt hb] at this

/-- The step `x ^= x >> r` is injective for `r ≥ 1`. -/
theorem xor_shift_inj (r : Nat) (hr : 1 ≤ r) (a b : Nat)
    (h : a ^^^ (a >>> r) = b ^^^ (b >>> r)) : a = b := by
  have ha : a < 2 ^ (a + b) :=
    lt_of_lt_of_le (Nat.lt_two_pow a) (Nat.pow_le_pow_right (by norm_num) (by omega))
  have hb : b < 2 ^ (a + b) :=
    lt_of_lt_of_le (Nat.lt_two_pow b) (Nat.pow_le_pow_right (by norm_num) (by omega))
  have key : ∀ d i, a + b ≤ i + d → a.testBit i = b.testBit i := by
    intro d
    induction d with
    | zero =>
      intro i hi
      have h1 : a < 2 ^ i :=
        lt_of_lt_of_le ha (Nat.pow_le_pow_right (by norm_num) (by omega))
      have h2 : b < 2 ^ i :=
        lt_of_lt_of_le hb (Nat.pow_le_pow_right (by norm_num) (by omega))
      rw [Nat.testBit_lt_two_pow h1, Nat.testBit_lt_two_pow h2]
    | succ d ih =>
      intro i hi
      have hbit := congrArg (fun x => x.testBit i) h
      simp only [Nat.testBit_xor, Nat.testBit_shiftRight] at hbit
      have hnext := ih (r + i) (by omega)
      rw [hnext] at hbit
      cases h1 : a.testBit i <;> cases h2 : b.testBit i <;>
        cases h3 : b.testBit (r + i) <;> simp [h1, h2, h3] at hbit ⊢
  exact Nat.eq_of_testBit_eq (fun i => key (a + b) i (by omega))

theorem xor_shift_lt (r a : Nat) (ha : a < 2 ^ 32) : a ^^^ (a >>> r) < 2 ^ 32 := by
  apply Nat.xor_lt_two_pow ha
  rw [Nat.shiftRight_eq_div_pow]
  exact lt_of_le_of_lt (Nat.div_le_self _ _) ha

/-- The four bytes of a 32-bit word, read back as a little-endian word, are
the word. -/
theorem req_id_bytes_word (x : Nat) (hx : x < 2 ^ 32) :
    u32 (x % 256 ||| (x / 256 % 256) <<< 8 ||| (x / 65536 % 256) <<< 16
      ||| (x / 16777216 % 256) <<< 24) = x := by
  have e1 : x % 256 ||| (x / 256 % 256) <<< 8 = 2 ^ 8 * (x / 256 % 256) + x % 256 := by
    rw [Nat.shiftLeft_eq, Nat.or_comm, Nat.mul_comm,
      ← Nat.mul_add_lt_is_or (by norm_num; omega)]
  have e2 : 2 ^ 8 * (x / 256 % 256) + x % 256 ||| (x / 65536 % 256) <<< 16
      = 2 ^ 16 * (x / 65536 % 256) + (2 ^ 8 * (x / 256 % 256) + x % 256) := by
    rw [Nat.shiftLeft_eq, Nat.or_comm, Nat.mul_comm,
      ← Nat.mul_add_lt_is_or (by norm_num; omega)]
  have e3 : 2 ^ 16 * (x / 65536 % 256) + (2 ^ 8 * (x / 256 % 256) + x % 256)
        ||| (x / 16777216 % 256) <<< 24
      = 2 ^ 24 * (x / 16777216 % 256)
        + (2 ^ 16 * (x / 65536 % 256) + (2 ^ 8 * (x / 256 % 256) + x % 256)) := by
    rw [Nat.shiftLeft_eq, Nat.or_comm, Nat.mul_comm,
      ← Nat.mul_add_lt_is_or (by norm_num; omega)]
  rw [e1, e2, e3]
  unfold u32
  norm_num at hx ⊢
  omega

/-- The hash of a 32-bit `req_id`, step by step. -/
theorem req_hash_eq (x : Nat) (hx : x < 2 ^ 32) :
    req_hash x =
      (u32 (((u32 (4 * murmur_m)) ^^^
        u32 ((u32 (x * murmur_m) ^^^ (u32 (x * murmur_m) >>> 24)) * murmur_m)
        ^^^ ((u32 (4 * murmur_m)) ^^^
        u32 ((u32 (x * murmur_m) ^^^ (u32 (x * murmur_m) >>> 24)) * murmur_m)) >>> 13)
        * murmur_m)) ^^^
      (u32 (((u32 (4 * murmur_m)) ^^^
        u32 ((u32 (x * murmur_m) ^^^ (u32 (x * murmur_m) >>> 24)) * murmur_m)
        ^^^ ((u32 (4 * murmur_m)) ^^^
        u32 ((u32 (x * murmur_m) ^^^ (u32 (x * murmur_m) >>> 24)) * murmur_m)) >>> 13)
        * murmur_m)) >>> 15 := by
  have hw := req_id_bytes_word x hx
  simp only [req_hash, nxt_murmur_hash2, req_id_bytes, murmur_body, murmur_tail, murmur_mix,
    List.length_cons, List.length_nil, hw]
  rfl

/-- Murmur2 over the four bytes of a 32-bit `req_id` is injective: two
different ids never share a hash. -/
theorem req_hash_inj (x y : Nat) (hx : x < 2 ^ 32) (hy : y < 2 ^ 32)
    (h : req_hash x = req_hash y) : x = y := by
  rw [req_hash_eq x hx, req_hash_eq y hy] at h
  have h1 := xor_shift_inj 15 (by norm_num) _ _ h
  have h2 := u32_mul_m_inj _ _ (xor_shift_lt 13 _ (Nat.xor_lt_two_pow (u32_lt _) (u32_lt _)))
    (xor_shift_lt 13 _ (Nat.xor_lt_two_pow (u32_lt _) (u32_lt _))) h1
  have h3 := xor_shift_inj 13 (by norm_num) _ _ h2
  have h4 := Nat.xor_right_inj.1 h3
  have h5 := u32_mul_m_inj _ _ (xor_shift_lt 24 _ (u32_lt _)) (xor_shift_lt 24 _ (u32_lt _)) h4
  have h6 := xor_shift_inj 24 (by norm_num) _ _ h5
  exact u32_mul_m_inj x y hx hy h6

/-- On entries filed by the request index, the query for a `req_id` is
answered exactly by the links with this `req_id`, although the key test
accepts everything. -/
theorem lvlhsh_match_entry (x : nxt_req_conn_link_t) (req_id : Nat)
    (value : Option nxt_req_conn_link_t) (hx : x.req_id < 2 ^ 32) (hid : req_id < 2 ^ 32) :
    lvlhsh_match nxt_req_conn_test (req_query req_id value) (req_entry x)
      = decide (x.req_id = req_id) := by
  unfold lvlhsh_match nxt_req_conn_test req_query req_entry
  simp only [decide_True, Bool.and_true]
  by_cases h : x.req_id = req_id
  · simp [h, req_hash]
  · have : req_hash x.req_id ≠ req_hash req_id := fun hh => h (req_hash_inj _ _ hx hid hh)
    simp only [req_hash] at this
    simp [h, this, req_hash]

theorem find_entries (req_id : Nat) (value : Option nxt_req_conn_link_t)
    (hid : req_id < 2 ^ 32) :
    ∀ (l : List nxt_req_conn_link_t), (∀ x ∈ l, x.req_id < 2 ^ 32) →
      (l.map req_entry).find? (lvlhsh_match nxt_req_conn_test (req_query req_id value))
        = (l.find? (fun x => decide (x.req_id = req_id))).map req_entry := by
  intro l
  induction l with
  | nil => intro _; rfl
  | cons a l ih =>
    intro h
    rw [List.map_cons, List.find?_cons, List.find?_cons,
      lvlhsh_match_entry a req_id value (h a (by simp)) hid, ih (fun x hx => h x (by simp [hx]))]
    cases decide (a.req_id = req_id) <;> rfl

theorem eraseP_entries (req_id : Nat) (value : Option nxt_req_conn_link_t)
    (hid : req_id < 2 ^ 32) :
    ∀ (l : List nxt_req_conn_link_t), (∀ x ∈ l, x.req_id < 2 ^ 32) →
      (l.map req_entry).eraseP (lvlhsh_match nxt_req_conn_test (req_query req_id value))
        = (l.eraseP (fun x => decide (x.req_id = req_id))).map req_entry := by
  intro l
  induction l with
  | nil => intro _; rfl
  | cons a l ih =>
    intro h
    rw [List.map_cons, List.eraseP_cons, List.eraseP_cons,
      lvlhsh_match_entry a req_id value (h a (by simp)) hid, ih (fun x hx => h x (by simp [hx]))]
    cases decide (a.req_id = req_id) <;> rfl

/-- In a list of links with pairwise distinct ids, the search by the id of a
member finds this member. -/
theorem find_by_id (rc : nxt_req_conn_link_t) :
    ∀ (l : List nxt_req_conn_link_t), (l.map (fun x => x.req_id)).Nodup → rc ∈ l →
      l.find? (fun x => decide (x.req_id = rc.req_id)) = some rc := by
  intro l
  induction l with
  | nil => intro _ h; simp at h
  | cons a l ih =>
    intro hnd hmem
    rw [List.map_cons, List.nodup_cons] at hnd
    rw [List.find?_cons]
    by_cases ha : a.req_id = rc.req_id
    · have : a = rc := by
        rcases List.mem_cons.1 hmem with h | h
        · exact h.symm
        · exact absurd (List.mem_map.2 ⟨rc, h, ha.symm⟩) hnd.1
      simp [this]
    · have hmem2 : rc ∈ l := by
        rcases List.mem_cons.1 hmem with h | h
        · exact absurd (by rw [h]) ha
        · exact h
      simp only [ha, decide_False]
      exact ih hnd.2 hmem2

theorem find_none_of_not_mem (req_id : Nat) :
    ∀ (l : List nxt_req_conn_link_t), req_id ∉ l.map (fun x => x.req_id) →
      l.find? (fun x => decide (x.req_id = req_id)) = none := by
  intro l h
  rw [List.find?_eq_none]
  intro x hx
  simp only [decide_eq_true_eq]
  intro hxe
  exact h (List.mem_map.2 ⟨x, hx, hxe⟩)

theorem eraseP_of_not_mem (req_id : Nat) :
    ∀ (l : List nxt_req_conn_link_t), req_id ∉ l.map (fun x => x.req_id) →
      l.eraseP (fun x => decide (x.req_id = req_id)) = l := by
  intro l h
  apply List.eraseP_of_forall_not
  intro x hx
  simp only [decide_eq_true_eq]
  intro hxe
  exact h (List.mem_map.2 ⟨x, hx, hxe⟩)

/-- After the link with a given id is erased, the id is no longer found and
every other member is still found under its own id. -/
theorem find_after_erase (req_id : Nat) :
    ∀ (l : List nxt_req_conn_link_t), (l.map (fun x => x.req_id)).Nodup →
      (l.eraseP (fun x => decide (x.req_id = req_id))).find?
          (fun x => decide (x.req_id = req_id)) = none ∧
      ∀ other ∈ l, other.req_id ≠ req_id →
        (l.eraseP (fun x => decide (x.req_id = req_id))).find?
          (fun x => decide (x.req_id = other.req_id)) = some other := by
  intro l
  induction l with
  | nil => intro _; simp
  | cons a l ih =>
    intro hnd
    have hnd0 := hnd
    rw [List.map_cons, List.nodup_cons] at hnd
    rw [List.eraseP_cons]
    by_cases ha : a.req_id = req_id
    · simp only [ha, decide_True, cond_true]
      have hnot : req_id ∉ l.map (fun x => x.req_id) := by rw [← ha]; exact hnd.1
      refine ⟨find_none_of_not_mem req_id l hnot, ?_⟩
      intro other hmem hne
      rcases List.mem_cons.1 hmem with h | h
      · exact absurd (by rw [h, ha]) hne
      · exact find_by_id other l hnd.2 h
    · simp only [ha, decide_False, cond_false, List.find?_cons]
      obtain ⟨ih1, ih2⟩ := ih hnd.2
      refine ⟨ih1, ?_⟩
      intro other hmem hne
      rcases List.mem_cons.1 hmem with h | h
      · simp [h]
      · have hao : a.req_id ≠ other.req_id := by
          intro hh
          exact hnd.1 (List.mem_map.2 ⟨other, h, hh.symm⟩)
        simp only [hao, decide_False]
        exact ih2 other h hne

/-- Adding links with pairwise distinct 32-bit ids files every one of them. -/
theorem requests_built :
    ∀ (todo done : List nxt_req_conn_link_t) (engine : nxt_event_engine_t),
      (∀ x ∈ done ++ todo, x.req_id < 2 ^ 32) →
      ((done ++ todo).map (fun x => x.req_id)).Nodup →
      engine.requests = done.map req_entry →
      (todo.foldl nxt_event_engine_request_add engine).requests
        = (done ++ todo).map req_entry := by
  intro todo
  induction todo with
  | nil => intro done engine _ _ h; simpa using h
  | cons rc todo ih =>
    intro done engine hrange hnd hreq
    rw [List.foldl_cons]
    have hsplit : done ++ rc :: todo = (done ++ [rc]) ++ todo := by simp
    rw [hsplit] at hrange hnd ⊢
    apply ih (done ++ [rc]) _ hrange hnd
    have hrc : rc.req_id < 2 ^ 32 := hrange rc (by simp)
    have hdone : ∀ x ∈ done, x.req_id < 2 ^ 32 := fun x hx => hrange x (by simp [hx])
    have hnot : rc.req_id ∉ done.map (fun x => x.req_id) := by
      rw [List.map_append, List.map_append, List.nodup_append] at hnd
      have h1 := hnd.1
      rw [List.nodup_append] at h1
      intro hmem
      exact h1.2.2 hmem (by simp)
    have hfind := find_entries rc.req_id (some rc) hrc done hdone
    rw [find_none_of_not_mem rc.req_id done hnot] at hfind
    simp only [nxt_event_engine_request_add, nxt_lvlhsh_insert, hreq]
    have hq :
        ({ key_hash := nxt_murmur_hash2 (req_id_bytes rc.req_id),
           key := req_id_bytes rc.req_id, replace := false, value := some rc } :
            nxt_lvlhsh_query_t) = req_query rc.req_id (some rc) := rfl
    rw [hq, hfind]
    simp [req_entry, req_query, req_hash]

/-- C7: in a request index built by `request_add` from an empty index, of
links with pairwise distinct 32-bit `req_id`s, for every link `rc` of them
`request_find(rc.req_id)` returns `rc`; `request_find_remove(rc.req_id)`
returns `rc`, and afterwards `request_find(rc.req_id)` returns null while
every other link is still found under its own `req_id`. -/
theorem C7_request_index_round_trip (engine : nxt_event_engine_t)
    (links : List nxt_req_conn_link_t) (rc : nxt_req_conn_link_t)
    (hempty : engine.requests = [])
    (hrange : ∀ x ∈ links, x.req_id < 2 ^ 32)
    (hnodup : (links.map (fun x => x.req_id)).Nodup)
    (hrc : rc ∈ links) :
    nxt_event_engine_request_find
        (links.foldl nxt_event_engine_request_add engine) rc.req_id = some rc ∧
    (nxt_event_engine_request_find_remove
        (links.foldl nxt_event_engine_request_add engine) rc.req_id).2 = some rc ∧
    nxt_event_engine_request_find
        (nxt_event_engine_request_find_remove
          (links.foldl nxt_event_engine_request_add engine) rc.req_id).1 rc.req_id = none ∧
    ∀ other ∈ links, other ≠ rc →
      nxt_event_engine_request_find
        (nxt_event_engine_request_find_remove
          (links.foldl nxt_event_engine_request_add engine) rc.req_id).1 other.req_id
        = some other := by
  have hbuilt := requests_built links [] engine (by simpa using hrange) (by simpa using hnodup)
    (by simpa using hempty)
  simp only [List.nil_append] at hbuilt
  have hid := hrange rc hrc
  have hfind := find_entries rc.req_id none hid links hrange
  rw [find_by_id rc links hnodup hrc] at hfind
  have herase := eraseP_entries rc.req_id none hid links hrange
  obtain ⟨hgone, hothers⟩ := find_after_erase rc.req_id links hnodup
  have hq : ∀ id,
      ({ key_hash := nxt_murmur_hash2 (req_id_bytes id),
         key := req_id_bytes id, replace := false, value := none } :
          nxt_lvlhsh_query_t) = req_query id none := fun _ => rfl
  have herange : ∀ x ∈ links.eraseP (fun x => decide (x.req_id = rc.req_id)),
      x.req_id < 2 ^ 32 := fun x hx => hrange x (List.mem_of_mem_eraseP hx)
  refine ⟨?_, ?_, ?_, ?_⟩
  · simp only [nxt_event_engine_request_find, nxt_lvlhsh_find, hbuilt, hq, hfind]
    simp [req_entry]
  · simp only [nxt_event_engine_request_find_remove, nxt_lvlhsh_delete, hbuilt, hq, hfind]
    simp [req_entry]
  · simp only [nxt_event_engine_request_find_remove, nxt_event_engine_request_find,
      nxt_lvlhsh_delete, nxt_lvlhsh_find, hbuilt, hq, hfind, herase, Option.map_some']
    rw [find_entries rc.req_id none hid _ herange, hgone]
    simp [NXT_OK, NXT_DECLINED]
  · intro other hother hne
    have hidne : other.req_id ≠ rc.req_id := by
      intro hh
      exact hne (List.inj_on_of_nodup_map hnodup hother hrc hh)
    simp only [nxt_event_engine_request_find_remove, nxt_event_engine_request_find,
      nxt_lvlhsh_delete, nxt_lvlhsh_find, hbuilt, hq, hfind, herase, Option.map_some']
    rw [find_entries other.req_id none (hrange other hother) _ herange,
      hothers other hother hidne]
    simp [req_entry]

/-- C7 at `sample_links`: the link with id 2 is found, removed, then gone,
while the link with id 3 is still found. -/
theorem C7_request_index_round_trip_witness :
    nxt_event_engine_request_find
        (sample_links.foldl nxt_event_engine_request_add engine_zero) 2
      = some { req_id := 2, conn := 20 } ∧
    (nxt_event_engine_request_find_remove
        (sample_links.foldl nxt_event_engine_request_add engine_zero) 2).2
      = some { req_id := 2, conn := 20 } ∧
    nxt_event_engine_request_find
        (nxt_event_engine_request_find_remove
          (sample_links.foldl nxt_event_engine_request_add engine_zero) 2).1 2 = none ∧
    nxt_event_engine_request_find
        (nxt_event_engine_request_find_remove
          (sample_links.foldl nxt_event_engine_request_add engine_zero) 2).1 3
      = some { req_id := 3, conn := 30 } := by
  obtain ⟨h1, h2, h3, h4⟩ := C7_request_index_round_trip engine_zero sample_links
    { req_id := 2, conn := 20 } rfl (by decide) (by decide) (by decide)
  exact ⟨h1, h2, h3, h4 { req_id := 3, conn := 30 } (by decide) (by decide)⟩
end NxtEventEngine
